import Mathlib

/-!
Verification of the event-capacity and payment-confirmation workflow of the
polyphonica booking site.  Definitions are shallow embeddings of the Python
source under `src/` (Django models, views and management commands); theorems
settle the frozen claims about that source.

Conventions used throughout:
* Django model rows become Lean structures; the database becomes explicit
  lists of rows threaded through each handler.
* Python `Decimal` money amounts become `Rat` (exact, like `Decimal` on the
  values that occur); pence amounts are `Int`.
* `queryset.filter(...).first()` becomes `List.find?`; a row `save()` becomes
  an in-place positional update of the matching list entry.
-/

namespace Polyphonica

/-! ## Statuses and enumerations (from workshops/models.py, concerts/models.py) -/

/-- `WorkshopRegistration.STATUS_CHOICES`. -/
inductive RegStatus where
  | pending
  | paid
  | attended
  | cancelled
  | refunded
deriving DecidableEq, Repr

/-- `ConcertTicketOrder.STATUS_CHOICES`. -/
inductive OrderStatus where
  | pending
  | paid
  | refunded
  | cancelled
deriving DecidableEq, Repr

/-- `Concert.TICKET_SOURCE_CHOICES`. -/
inductive TicketSource where
  | internal
  | external
  | door
  | none
deriving DecidableEq, Repr

/-! ## Dates (shallow embedding of `datetime.date`) -/

/-- A calendar date, as used by `FinanceService.get_uk_tax_year_dates` and the
transaction-date range filters. -/
structure Date where
  year : Int
  month : Nat
  day : Nat
deriving DecidableEq, Repr

/-- Lexicographic comparison on dates, mirroring Python `date` ordering. -/
def Date.le (a b : Date) : Bool :=
  a.year < b.year ∨
    (a.year = b.year ∧
      (a.month < b.month ∨ (a.month = b.month ∧ a.day ≤ b.day)))

/-! ## Model rows -/

/-- The fields of `workshops.models.Workshop` relevant to capacity and the
legacy importer. -/
structure Workshop where
  id : Nat
  price : Rat
  max_participants : Nat
  current_registrations : Nat
  legacy_bookings : Nat
deriving DecidableEq, Repr

/-- The fields of `workshops.models.WorkshopRegistration` used by the
payment-confirmation workflow and the importer. -/
structure WorkshopRegistration where
  id : Nat
  workshopId : Nat
  userId : Nat
  status : RegStatus
  amount_paid : Rat
  stripe_payment_intent_id : String
  stripe_checkout_session_id : String
  confirmation_sent : Bool
deriving DecidableEq, Repr

/-- The fields of `concerts.models.Concert` relevant to capacity and
checkout. -/
structure Concert where
  id : Nat
  ticket_source : TicketSource
  full_price : Rat
  discount_price : Rat
  capacity : Option Nat
  tickets_sold : Nat
deriving DecidableEq, Repr

/-- The fields of `concerts.models.ConcertTicketOrder` used by checkout and
webhook reconciliation. -/
structure ConcertTicketOrder where
  id : Nat
  concertId : Nat
  email : String
  name : String
  phone : String
  ticket_type : String
  quantity : Nat
  unit_price : Rat
  total_price : Rat
  status : OrderStatus
  stripe_checkout_session_id : String
  paid_flag : Bool
  confirmation_sent : Bool
deriving DecidableEq, Repr

/-- The fields of `django.contrib.auth.models.User` the workflow touches. -/
structure UserRec where
  id : Nat
  username : String
  email : String
  first_name : String
  last_name : String
  usable_password : Bool
deriving DecidableEq, Repr

/-- The fields of `finance.models.StripeTransaction` (amounts in pence). -/
structure StripeTransaction where
  id : Nat
  transaction_type : String
  workshop_registrationId : Option Nat
  concert_orderId : Option Nat
  payment_intent_id : String
  charge_id : String
  balance_transaction_id : String
  gross_amount : Int
  stripe_fee : Int
  net_amount : Int
  transaction_date : Date
deriving DecidableEq, Repr

/-- The database state threaded through the handlers. -/
structure DB where
  users : List UserRec
  workshops : List Workshop
  registrations : List WorkshopRegistration
  concerts : List Concert
  orders : List ConcertTicketOrder
  transactions : List StripeTransaction
deriving DecidableEq, Repr

/-! ## Capacity accountant (Workshop / Concert properties) -/

/-- `Workshop.total_bookings`: `current_registrations + legacy_bookings`. -/
def Workshop.total_bookings (w : Workshop) : Nat :=
  w.current_registrations + w.legacy_bookings

/-- `Workshop.is_full`: `total_bookings >= max_participants`. -/
def Workshop.is_full (w : Workshop) : Bool :=
  w.total_bookings ≥ w.max_participants

/-- `Workshop.places_remaining`: `max(0, max_participants - total_bookings)`
(Python ints, hence computed in `Int`). -/
def Workshop.places_remaining (w : Workshop) : Int :=
  max 0 ((w.max_participants : Int) - (w.total_bookings : Int))

/-- Python truthiness of `Concert.capacity` (`not self.capacity` is true for
both `None` and `0`). -/
def Concert.capacityTruthy (c : Concert) : Bool :=
  match c.capacity with
  | Option.none => false
  | Option.some n => n ≠ 0

/-- `Concert.is_sold_out`: requires internal ticket sales and a truthy
capacity, then compares `tickets_sold >= capacity`. -/
def Concert.is_sold_out (c : Concert) : Bool :=
  if c.ticket_source ≠ TicketSource.internal ∨ ¬c.capacityTruthy then false
  else
    match c.capacity with
    | Option.none => false
    | Option.some cap => c.tickets_sold ≥ cap

/-- `Concert.tickets_remaining`: `None` unless internal sales with truthy
capacity, otherwise `max(0, capacity - tickets_sold)`. -/
def Concert.tickets_remaining (c : Concert) : Option Int :=
  if c.ticket_source ≠ TicketSource.internal ∨ ¬c.capacityTruthy then Option.none
  else
    match c.capacity with
    | Option.none => Option.none
    | Option.some cap =>
        Option.some (max 0 ((cap : Int) - (c.tickets_sold : Int)))

/-! ## Finance service: UK tax year (finance/services.py) -/

/-- `FinanceService.get_uk_tax_year_dates()` with `year=None`: the UK tax year
(6 April – 5 April) containing `today`. -/
def get_uk_tax_year_dates (today : Date) : Date × Date :=
  let year : Int :=
    if today.month < 4 ∨ (today.month = 4 ∧ today.day < 6) then today.year - 1
    else today.year
  (⟨year, 4, 6⟩, ⟨year + 1, 4, 5⟩)

/-! ## Capacity accountant: recomputation (workshops/models.py 136-141, 197-200) -/

/-- The count recomputed by `Workshop.update_registration_count`:
registrations of this workshop with status in `{paid, attended}`. -/
def countPaidAttended (regs : List WorkshopRegistration) (wid : Nat) : Nat :=
  (regs.filter fun r =>
    r.workshopId == wid &&
      (r.status == RegStatus.paid || r.status == RegStatus.attended)).length

/-- Apply an update to every workshop row with the given primary key. -/
def updateWorkshop (ws : List Workshop) (wid : Nat) (f : Workshop → Workshop) :
    List Workshop :=
  ws.map fun w => if w.id == wid then f w else w

/-- Apply an update to every concert row with the given primary key. -/
def updateConcert (cs : List Concert) (cid : Nat) (f : Concert → Concert) :
    List Concert :=
  cs.map fun c => if c.id == cid then f c else c

/-- `WorkshopRegistration.save`: write the row (replace by primary key, or
append if new), then run the `update_registration_count` hook on its
workshop. -/
def saveRegistration (db : DB) (r : WorkshopRegistration) : DB :=
  let written :=
    if db.registrations.any (·.id == r.id) then
      db.registrations.map fun x => if x.id == r.id then r else x
    else db.registrations ++ [r]
  { db with
    registrations := written
    workshops := updateWorkshop db.workshops r.workshopId fun w =>
      { w with current_registrations := countPaidAttended written r.workshopId } }

/-- `ConcertTicketOrder.save`: a plain row write; the model defines no save
hook, so no counter is touched. -/
def saveOrder (db : DB) (o : ConcertTicketOrder) : DB :=
  let written :=
    if db.orders.any (·.id == o.id) then
      db.orders.map fun x => if x.id == o.id then o else x
    else db.orders ++ [o]
  { db with orders := written }

/-- Sum of quantities over a concert's paid orders — the ledger-recomputed
value of `tickets_sold` named by the spec's Capacity Accountant contract. -/
def sumPaidQuantities (orders : List ConcertTicketOrder) (cid : Nat) : Nat :=
  ((orders.filter fun o =>
      o.concertId == cid && o.status == OrderStatus.paid).map
    (·.quantity)).sum

/-! ## Webhook verification (core/stripe_utils.py `verify_webhook`) -/

/-- The inputs that decide `verify_webhook`'s outcome: whether a signing
secret is configured, whether `stripe.Webhook.construct_event` accepts the
signature, and whether the payload parses. -/
structure WebhookRequest where
  secretConfigured : Bool
  signatureValid : Bool
  payloadParses : Bool
deriving DecidableEq, Repr

/-- `verify_webhook` succeeds (returns an event rather than a 400 response).
With a secret configured, `construct_event` raises on an unparseable payload
(`ValueError`) or a bad signature (`SignatureVerificationError`); without a
secret, `json.loads` raises on an unparseable payload. -/
def verify_webhook_ok (req : WebhookRequest) : Bool :=
  if req.secretConfigured then req.payloadParses && req.signatureValid
  else req.payloadParses

/-! ## Webhook reconciler (core/views.py 162-227; same per-app logic in
workshops/views.py 319-373 and concerts/views.py 257-288) -/

/-- Metadata of a `checkout.session.completed` event for a workshop payment:
`metadata.workshop_id`, `metadata.user_id` and the session's `id`. -/
structure WorkshopMeta where
  workshop_id : Option Nat
  user_id : Option Nat
  session_id : String
deriving DecidableEq, Repr

/-- Metadata of a `checkout.session.completed` event for a concert payment:
`metadata.concert_id` and the session's `id`. -/
structure ConcertMeta where
  concert_id : Option Nat
  session_id : String
deriving DecidableEq, Repr

/-- The workshop branch of the webhook handler: look up the registration by
`(workshop, user)`; if it exists in `pending` state, mark it paid (stamping
amount and session id) and save it — which reruns the registration count
hook.  Anything missing is silently ignored. -/
def workshopWebhook (db : DB) (md : WorkshopMeta) : DB :=
  match md.workshop_id, md.user_id with
  | Option.some wid, Option.some uid =>
      match db.workshops.find? (·.id == wid), db.users.any (·.id == uid) with
      | Option.some w, true =>
          match db.registrations.find?
              (fun r => r.workshopId == wid && r.userId == uid) with
          | Option.some r =>
              if r.status = RegStatus.pending then
                saveRegistration db
                  { r with
                    status := RegStatus.paid
                    amount_paid := w.price
                    stripe_checkout_session_id := md.session_id }
              else db
          | Option.none => db
      | _, _ => db
  | _, _ => db

/-- Mark the first pending order with the given checkout-session id as paid,
in place — `filter(...).first()` followed by `order.save()`. -/
def markFirstOrderPaid (orders : List ConcertTicketOrder) (sid : String) :
    List ConcertTicketOrder :=
  match orders with
  | [] => []
  | o :: rest =>
      if o.stripe_checkout_session_id == sid && o.status == OrderStatus.pending
      then { o with status := OrderStatus.paid } :: rest
      else o :: markFirstOrderPaid rest sid

/-- The concert branch of the webhook handler: find the first pending order
carrying the session id, mark it paid, and add its quantity to the concert's
`tickets_sold`. -/
def concertWebhook (db : DB) (md : ConcertMeta) : DB :=
  match md.concert_id with
  | Option.none => db
  | Option.some _ =>
      match db.orders.find? (fun o =>
          o.stripe_checkout_session_id == md.session_id &&
            o.status == OrderStatus.pending) with
      | Option.none => db
      | Option.some o =>
          { db with
            orders := markFirstOrderPaid db.orders md.session_id
            concerts := updateConcert db.concerts o.concertId fun c =>
              { c with tickets_sold := c.tickets_sold + o.quantity } }

/-- A verified webhook event, after `verify_webhook`. -/
inductive WebhookEvent where
  | completedWorkshop (md : WorkshopMeta)
  | completedConcert (md : ConcertMeta)
  | completedOther
  | otherType
deriving DecidableEq, Repr

/-- The body of the unified webhook handler (core/views.py 178-227): dispatch
`checkout.session.completed` by `metadata.type`; everything else falls
through. -/
def webhookProcess (db : DB) (ev : WebhookEvent) : DB :=
  match ev with
  | WebhookEvent.completedWorkshop md => workshopWebhook db md
  | WebhookEvent.completedConcert md => concertWebhook db md
  | WebhookEvent.completedOther => db
  | WebhookEvent.otherType => db

/-- The full webhook endpoint: verify, then process; respond 400 exactly when
verification fails and 200 otherwise. -/
def stripe_webhook (db : DB) (req : WebhookRequest) (ev : WebhookEvent) :
    DB × Nat :=
  if verify_webhook_ok req then (webhookProcess db ev, 200)
  else (db, 400)

/-! ## Checkout orchestrator: session staging (concerts/views.py 71-151,
workshops/views.py 85-175) -/

/-- The `request.session['concert_order']` staging dict. -/
structure StagedConcertOrder where
  concert_id : Nat
  name : String
  email : String
  phone : String
  ticket_type : String
  quantity : Nat
  unit_price : Rat
  total_price : Rat
deriving DecidableEq, Repr

/-- The `request.session['workshop_registration']` staging dict (the random
password stored for the account-created email is omitted — it never reaches
the database). -/
structure StagedWorkshopReg where
  workshop_id : Nat
  user_id : Nat
  phone : String
  special_requirements : String
  emergency_contact : String
  instruments : String
  terms_accepted : Bool
  account_created : Bool
deriving DecidableEq, Repr

/-- The buyer's transient browser session store. -/
structure Browser where
  concert_order : Option StagedConcertOrder
  workshop_registration : Option StagedWorkshopReg
  stripe_checkout_session_id : Option String
deriving DecidableEq, Repr

/-- Validated `ConcertTicketOrderForm` data. -/
structure OrderFormData where
  name : String
  email : String
  phone : String
  ticket_type : String
  quantity : Nat
deriving DecidableEq, Repr

/-- `ConcertTicketOrderForm.get_unit_price`. -/
def formUnitPrice (c : Concert) (fd : OrderFormData) : Rat :=
  if fd.ticket_type = "discount" then c.discount_price else c.full_price

inductive CheckoutOutcome where
  | redirectedToStripe
  | stripeErrorRedirect
deriving DecidableEq, Repr

/-- The valid-POST path of `concerts.views.order_tickets`: stage the order
data (prices computed by the form) and the new checkout-session id in the
browser session, then redirect to the processor.  No database row of any
kind is written; on a processor error the staged data is left behind and the
buyer is redirected back. -/
def order_tickets (db : DB) (br : Browser) (c : Concert) (fd : OrderFormData)
    (stripeOk : Bool) (newSessionId : String) :
    DB × Browser × CheckoutOutcome :=
  let unit := formUnitPrice c fd
  let staged : StagedConcertOrder :=
    { concert_id := c.id
      name := fd.name
      email := fd.email
      phone := fd.phone
      ticket_type := fd.ticket_type
      quantity := fd.quantity
      unit_price := unit
      total_price := unit * fd.quantity }
  let br1 := { br with concert_order := Option.some staged }
  if stripeOk then
    (db, { br1 with stripe_checkout_session_id := Option.some newSessionId },
      CheckoutOutcome.redirectedToStripe)
  else (db, br1, CheckoutOutcome.stripeErrorRedirect)

/-- Validated `WorkshopRegistrationForm` data. -/
structure RegFormData where
  first_name : String
  last_name : String
  email : String
  phone : String
  special_requirements : String
  emergency_contact : String
  instruments : String
deriving DecidableEq, Repr

/-- Lower-case a string (Python `str.lower` on ASCII identifiers). -/
def strLower (s : String) : String := String.mk (s.data.map Char.toLower)

/-- Python `str.strip()`: drop surrounding whitespace. -/
def strTrim (s : String) : String :=
  String.mk
    (((s.data.dropWhile Char.isWhitespace).reverse.dropWhile
      Char.isWhitespace).reverse)

/-- Remove every occurrence of a character (`str.replace(c, \'\')`). -/
def removeChar (c : Char) (s : String) : String :=
  String.mk (s.data.filter fun x => x != c)

/-- Split at a one-character separator (`str.split(sep)` with every
separator occurrence producing a boundary). -/
def splitOnChar (sep : Char) : List Char → List (List Char)
  | [] => [[]]
  | c :: rest =>
      match splitOnChar sep rest with
      | [] => [[]]
      | g :: gs => if c = sep then [] :: g :: gs else (c :: g) :: gs

/-- String form of `splitOnChar`. -/
def strSplitOn (s : String) (sep : Char) : List String :=
  (splitOnChar sep s.data).map String.mk

/-- `str.startswith`. -/
def strStartsWith (s pre : String) : Bool := pre.data.isPrefixOf s.data

/-- `email.split('@')[0]`. -/
def emailLocalPart (email : String) : String :=
  String.mk (email.data.takeWhile (· ≠ '@'))

/-- The `while User.objects.filter(username=username).exists()` loop from
`WorkshopRegistrationForm.get_or_create_user`: try `base`, then `base1`,
`base2`, … until a free username is found.  The fuel bound
`users.length + 1` suffices by pigeonhole. -/
def freshUsernameFrom (users : List UserRec) (base : String) :
    Nat → Nat → String
  | 0, k => base ++ toString k
  | fuel + 1, k =>
      let cand := base ++ toString k
      if users.any (·.username == cand) then
        freshUsernameFrom users base fuel (k + 1)
      else cand

/-- Username generation in `get_or_create_user`. -/
def freshUsername (users : List UserRec) (base : String) : String :=
  if users.any (·.username == base) then
    freshUsernameFrom users base (users.length + 1) 1
  else base

/-- `WorkshopRegistrationForm.get_or_create_user` (workshops/forms.py
78-117): an authenticated user is reused (names refreshed); otherwise a new
account with a username derived from the email and a random (usable)
password is created.  Returns the updated database, the user id and the
`created` flag. -/
def form_get_or_create_user (db : DB) (auth : Option Nat) (fd : RegFormData)
    (nextUserId : Nat) : DB × Nat × Bool :=
  match auth with
  | Option.some uid =>
      ({ db with
          users := db.users.map fun u =>
            if u.id == uid then
              { u with first_name := fd.first_name, last_name := fd.last_name }
            else u },
        uid, false)
  | Option.none =>
      let base := strLower (emailLocalPart fd.email)
      let uname := freshUsername db.users base
      ({ db with
          users := db.users ++
            [{ id := nextUserId
               username := uname
               email := fd.email
               first_name := fd.first_name
               last_name := fd.last_name
               usable_password := true }] },
        nextUserId, true)

inductive RegisterOutcome where
  | alreadyRegistered
  | redirectedToStripe
  | stripeErrorRedirect
deriving DecidableEq, Repr

/-- The valid-POST path of `workshops.views.register` (lines 92-175): get or
create the user, re-check for an active registration, stage the registration
data in the browser session (lines 104-115) and redirect to the processor.
The only database write is the possible user account; no registration row is
persisted. -/
def register (db : DB) (br : Browser) (w : Workshop) (auth : Option Nat)
    (fd : RegFormData) (nextUserId : Nat) (stripeOk : Bool)
    (newSessionId : String) : DB × Browser × RegisterOutcome :=
  let created := form_get_or_create_user db auth fd nextUserId
  let db1 := created.1
  let uid := created.2.1
  if db1.registrations.any (fun r =>
      r.workshopId == w.id && r.userId == uid &&
        (r.status == RegStatus.paid || r.status == RegStatus.attended)) then
    (db1, br, RegisterOutcome.alreadyRegistered)
  else
    let staged : StagedWorkshopReg :=
      { workshop_id := w.id
        user_id := uid
        phone := fd.phone
        special_requirements := fd.special_requirements
        emergency_contact := fd.emergency_contact
        instruments := fd.instruments
        terms_accepted := true
        account_created := created.2.2 }
    let br1 := { br with workshop_registration := Option.some staged }
    if stripeOk then
      (db1, { br1 with stripe_checkout_session_id := Option.some newSessionId },
        RegisterOutcome.redirectedToStripe)
    else (db1, br1, RegisterOutcome.stripeErrorRedirect)

/-! ## Success-return handler (concerts/views.py 162-240) -/

inductive SuccessOutcome where
  | errorInvalidSession
  | errorStripe
  | errorNotPaid
  | errorNoData
  | successAlready
  | successCreated
deriving DecidableEq, Repr

/-- Clear the two checkout keys from the browser session. -/
def clearConcertStaging (br : Browser) : Browser :=
  { br with
    concert_order := Option.none
    stripe_checkout_session_id := Option.none }

/-- `concerts.views.checkout_success`.  `stripePaid` models
`stripe.checkout.Session.retrieve`: `none` is a `StripeError`, `some b` says
whether `payment_status == 'paid'`.  `nextId` is the primary key the create
would use. -/
def checkout_success (stripePaid : String → Option Bool) (db : DB)
    (br : Browser) (concert : Concert) (session_id : Option String)
    (nextId : Nat) : DB × Browser × SuccessOutcome :=
  match session_id with
  | Option.none => (db, br, SuccessOutcome.errorInvalidSession)
  | Option.some sid =>
      match stripePaid sid with
      | Option.none => (db, br, SuccessOutcome.errorStripe)
      | Option.some paidStatus =>
          if ¬paidStatus then (db, br, SuccessOutcome.errorNotPaid)
          else
            let matching : Option StagedConcertOrder :=
              match br.concert_order with
              | Option.none => Option.none
              | Option.some od =>
                  if od.concert_id == concert.id then Option.some od
                  else Option.none
            match matching with
            | Option.none =>
                -- order data missing or for another concert: report an
                -- existing order as success, otherwise an error; the code
                -- returns before reaching the session-clearing lines
                if db.orders.any
                    (·.stripe_checkout_session_id == sid) then
                  (db, br, SuccessOutcome.successAlready)
                else (db, br, SuccessOutcome.errorNoData)
            | Option.some od =>
                if db.orders.any
                    (·.stripe_checkout_session_id == sid) then
                  (db, clearConcertStaging br, SuccessOutcome.successAlready)
                else
                  let order : ConcertTicketOrder :=
                    { id := nextId
                      concertId := concert.id
                      email := od.email
                      name := od.name
                      phone := od.phone
                      ticket_type := od.ticket_type
                      quantity := od.quantity
                      unit_price := od.unit_price
                      total_price := od.total_price
                      status := OrderStatus.paid
                      stripe_checkout_session_id := sid
                      paid_flag := true
                      -- send_ticket_confirmation_email uses
                      -- fail_silently=True and then records the send
                      confirmation_sent := true }
                  ({ db with
                      orders := db.orders ++ [order]
                      concerts := updateConcert db.concerts concert.id
                        fun c =>
                          { c with
                            tickets_sold := c.tickets_sold + order.quantity } },
                    clearConcertStaging br, SuccessOutcome.successCreated)

/-! ## Finance aggregator (finance/services.py `get_income_summary`) -/

/-- Date-range test used by the transaction filters
(`transaction_date__date__gte/lte`). -/
def dateInRange (s e d : Date) : Bool := Date.le s d && Date.le d e

/-- Django `Sum(...)`: `None` over an empty queryset. -/
def sumOpt (l : List Int) : Option Int :=
  match l with
  | [] => Option.none
  | _ => Option.some l.sum

/-- The `to_pounds` helper of `get_income_summary`:
`Decimal(pence or 0) / 100` (exact — `Decimal` division by 100 at default
precision is exact for these magnitudes). -/
def to_pounds (pence : Option Int) : Rat := ((pence.getD 0 : Int) : Rat) / 100

/-- The workshop-stream rows of `get_income_summary` (no drill-down filter):
transactions linked to a workshop registration with date in range. -/
def workshopRows (txs : List StripeTransaction) (s e : Date) :
    List StripeTransaction :=
  txs.filter fun t =>
    t.workshop_registrationId.isSome && dateInRange s e t.transaction_date

/-- The concert-stream rows of `get_income_summary` (no drill-down filter). -/
def concertRows (txs : List StripeTransaction) (s e : Date) :
    List StripeTransaction :=
  txs.filter fun t =>
    t.concert_orderId.isSome && dateInRange s e t.transaction_date

/-- The result of `get_income_summary`. -/
structure IncomeSummary where
  workshop_gross : Rat
  workshop_fees : Rat
  workshop_net : Rat
  workshop_count : Nat
  concert_gross : Rat
  concert_fees : Rat
  concert_net : Rat
  concert_count : Nat
  total_gross : Rat
  total_fees : Rat
  total_net : Rat
deriving DecidableEq, Repr

/-- `FinanceService.get_income_summary` (default call, without the optional
event drill-down filters): per-stream pence sums converted once to pounds,
and combined totals as the sum of the two stream figures. -/
def get_income_summary (txs : List StripeTransaction) (s e : Date) :
    IncomeSummary :=
  let w := workshopRows txs s e
  let c := concertRows txs s e
  let wg := to_pounds (sumOpt (w.map (·.gross_amount)))
  let wf := to_pounds (sumOpt (w.map (·.stripe_fee)))
  let wn := to_pounds (sumOpt (w.map (·.net_amount)))
  let cg := to_pounds (sumOpt (c.map (·.gross_amount)))
  let cf := to_pounds (sumOpt (c.map (·.stripe_fee)))
  let cn := to_pounds (sumOpt (c.map (·.net_amount)))
  { workshop_gross := wg
    workshop_fees := wf
    workshop_net := wn
    workshop_count := w.length
    concert_gross := cg
    concert_fees := cf
    concert_net := cn
    concert_count := c.length
    total_gross := wg + cg
    total_fees := wf + cf
    total_net := wn + cn }

/-! ## Fee sync (finance/management/commands/sync_stripe_fees.py) -/

/-- A Stripe balance transaction as retrieved by the sync command. -/
structure BalanceTx where
  id : String
  amount : Int
  fee : Int
  net : Int
  created : Date
deriving DecidableEq, Repr

/-- The `StripeTransaction` record the sync command creates for a payment
(lines 176-197): amounts copied from the balance transaction. -/
def syncCreateTransaction (txId : Nat) (trans_type : String)
    (regId orderId : Option Nat) (payment_intent_id charge_id : String)
    (bt : BalanceTx) : StripeTransaction :=
  { id := txId
    transaction_type := trans_type
    workshop_registrationId := regId
    concert_orderId := orderId
    payment_intent_id := payment_intent_id
    charge_id := charge_id
    balance_transaction_id := bt.id
    gross_amount := bt.amount
    stripe_fee := bt.fee
    net_amount := bt.net
    transaction_date := bt.created }

/-- The `--force` update path (lines 161-172): amounts overwritten from the
balance transaction. -/
def syncUpdateTransaction (existing : StripeTransaction) (charge_id : String)
    (bt : BalanceTx) : StripeTransaction :=
  { existing with
    charge_id := charge_id
    balance_transaction_id := bt.id
    gross_amount := bt.amount
    stripe_fee := bt.fee
    net_amount := bt.net
    transaction_date := bt.created }

/-! ## Legacy importer
(workshops/management/commands/import_legacy_bookings.py) -/

/-- A raw CSV row from `csv.DictReader`: header cell to value cell. -/
abbrev Row : Type := List (String × String)

/-- Key normalisation in `validate_row`:
`{k.lower().strip(): v.strip()}`. -/
def normalizeRow (row : Row) : Row :=
  row.map fun kv => (strTrim (strLower kv.1), strTrim kv.2)

/-- `row.get(k, '')`. -/
def rowGet (row : Row) (k : String) : String :=
  match row.find? (fun kv => kv.1 == k) with
  | Option.some kv => kv.2
  | Option.none => ""

/-- Python `a or b` on strings (empty string is falsy). -/
def strOr (a b : String) : String := if a = "" then b else a

/-- `.replace('£', '').replace(',', '').strip()`. -/
def stripMoney (s : String) : String :=
  strTrim (removeChar ',' (removeChar '£' s))

/-- Digit list to value. -/
def digitsVal (cs : List Char) : Nat :=
  cs.foldl (fun acc c => acc * 10 + (c.toNat - '0'.toNat)) 0

/-- `Decimal(s)` on a plain fixed-point literal: optional sign, digits,
optional decimal point.  (The exotic forms `Decimal` also accepts —
exponents, NaN, infinities — do not occur in this workflow and are treated
as unparseable.) -/
def parseDecimal (s : String) : Option Rat :=
  let cs := s.data
  let signed : Int × List Char :=
    match cs with
    | '+' :: t => (1, t)
    | '-' :: t => (-1, t)
    | _ => (1, cs)
  let sign := signed.1
  let rest := signed.2
  let intPart := rest.takeWhile Char.isDigit
  let rest2 := rest.drop intPart.length
  match rest2 with
  | [] =>
      if intPart.isEmpty then Option.none
      else Option.some (sign * (digitsVal intPart : Int))
  | '.' :: frac =>
      if frac.all Char.isDigit ∧ ¬(intPart.isEmpty ∧ frac.isEmpty) then
        Option.some
          ((sign : Rat) *
            ((digitsVal intPart : Rat) +
              (digitsVal frac : Rat) / ((10 : Rat) ^ frac.length)))
      else Option.none
  | _ => Option.none

/-- Leap-year rule used by `datetime`. -/
def isLeapYear (y : Int) : Bool := y % 4 = 0 ∧ (y % 100 ≠ 0 ∨ y % 400 = 0)

/-- Days in a month (`datetime` calendar validation). -/
def daysInMonth (y : Int) (m : Nat) : Nat :=
  if m = 2 then (if isLeapYear y then 29 else 28)
  else if m = 4 ∨ m = 6 ∨ m = 9 ∨ m = 11 then 30
  else 31

/-- A numeric field of at most `maxLen` digits. -/
def parseNatField (s : String) (maxLen : Nat) : Option Nat :=
  if 1 ≤ s.length ∧ s.length ≤ maxLen ∧ s.data.all Char.isDigit then
    Option.some (digitsVal s.data)
  else Option.none

/-- `datetime` range validation of a candidate date. -/
def mkValidDate (y m d : Nat) : Option Date :=
  if 1 ≤ y ∧ y ≤ 9999 ∧ 1 ≤ m ∧ m ≤ 12 ∧ 1 ≤ d ∧ d ≤ daysInMonth y m then
    Option.some ⟨(y : Int), m, d⟩
  else Option.none

/-- A `HH:MM:SS` time field. -/
def validTimeHMS (t : String) : Bool :=
  match strSplitOn t ':' with
  | [h, m, s] =>
      (match parseNatField h 2, parseNatField m 2, parseNatField s 2 with
       | Option.some hv, Option.some mv, Option.some sv =>
           hv ≤ 23 && mv ≤ 59 && sv ≤ 59
       | _, _, _ => false)
  | _ => false

/-- A `HH:MM` time field. -/
def validTimeHM (t : String) : Bool :=
  match strSplitOn t ':' with
  | [h, m] =>
      (match parseNatField h 2, parseNatField m 2 with
       | Option.some hv, Option.some mv => hv ≤ 23 && mv ≤ 59
       | _, _ => false)
  | _ => false

/-- Three date components in a given role order. -/
def dateFromFields (ys ms ds : String) : Option Date := do
  let y ← parseNatField ys 4
  let m ← parseNatField ms 2
  let d ← parseNatField ds 2
  mkValidDate y m d

/-- Format `%Y-%m-%d`. -/
def fmtYmd (s : String) : Option Date :=
  match strSplitOn s '-' with
  | [a, b, c] => dateFromFields a b c
  | _ => Option.none

/-- Format `%Y-%m-%d %H:%M:%S` (time validated, then discarded: the stored
value is only ever compared as a date). -/
def fmtYmdHMS (s : String) : Option Date :=
  match strSplitOn s ' ' with
  | [d, t] => if validTimeHMS t then fmtYmd d else Option.none
  | _ => Option.none

/-- Format `%d/%m/%Y`. -/
def fmtDmySlash (s : String) : Option Date :=
  match strSplitOn s '/' with
  | [a, b, c] => dateFromFields c b a
  | _ => Option.none

/-- Format `%d/%m/%Y %H:%M`. -/
def fmtDmySlashHM (s : String) : Option Date :=
  match strSplitOn s ' ' with
  | [d, t] => if validTimeHM t then fmtDmySlash d else Option.none
  | _ => Option.none

/-- Format `%d-%m-%Y`. -/
def fmtDmyDash (s : String) : Option Date :=
  match strSplitOn s '-' with
  | [a, b, c] => dateFromFields c b a
  | _ => Option.none

/-- Format `%m/%d/%Y` (US). -/
def fmtMdySlash (s : String) : Option Date :=
  match strSplitOn s '/' with
  | [a, b, c] => dateFromFields c a b
  | _ => Option.none

/-- `Command.parse_date`: the six accepted formats, tried in order. -/
def parse_date (s : String) : Option Date :=
  (fmtYmd s) <|> (fmtYmdHMS s) <|> (fmtDmySlash s) <|> (fmtDmySlashHM s) <|>
    (fmtDmyDash s) <|> (fmtMdySlash s)

/-- A row that passed `Command.validate_row`. -/
structure ValidatedRow where
  email : String
  name : String
  first_name : String
  last_name : String
  amount : Rat
  fee : Rat
  payment_intent_id : String
  transaction_date : Date
  phone : String
  charge_id : String
  balance_transaction_id : String
deriving DecidableEq, Repr

/-- `name.split(' ', 1)`. -/
def splitNameOnce (name : String) : String × String :=
  let cs := name.data
  let before := cs.takeWhile (· ≠ ' ')
  if before.length = cs.length then (name, "")
  else (String.mk before, String.mk (cs.drop (before.length + 1)))

/-- `Command.validate_row` (import_legacy_bookings.py 231-329). -/
def validate_row (raw : Row) : Except String ValidatedRow := do
  let row := normalizeRow raw
  let email0 := strOr (rowGet row "email") (rowGet row "customer email")
  if email0 = "" then throw "Missing email"
  let email := strLower email0
  let name0 :=
    strOr (strOr (rowGet row "name") (rowGet row "card name"))
      (rowGet row "customer name")
  let nameParts : String × String × String ←
    if name0 ≠ "" then
      let p := splitNameOnce name0
      pure (name0, p.1, p.2)
    else if row.any (fun kv => kv.1 == "first_name") then
      let fn := rowGet row "first_name"
      let ln := rowGet row "last_name"
      pure (strTrim (fn ++ " " ++ ln), fn, ln)
    else
      throw "Missing name (need Card Name, name, or first_name/last_name column)"
  let name := nameParts.1
  if name = "" then throw "Name is empty"
  let amount0 :=
    strOr (strOr (rowGet row "amount") (rowGet row "gross_amount"))
      (rowGet row "gross")
  if amount0 = "" then throw "Missing amount"
  let amountStr := stripMoney amount0
  let amount ←
    match parseDecimal amountStr with
    | Option.some a => pure a
    | Option.none => throw ("Invalid amount: " ++ amountStr)
  let fee0 := strOr (rowGet row "fee") (rowGet row "stripe_fee")
  if fee0 = "" then throw "Missing fee"
  let feeStr := stripMoney fee0
  let fee ←
    match parseDecimal feeStr with
    | Option.some f => pure f
    | Option.none => throw ("Invalid fee: " ++ feeStr)
  let pi :=
    strOr (strOr (rowGet row "payment_intent_id") (rowGet row "paymentintent id"))
      (rowGet row "payment_intent")
  if pi = "" then throw "Missing payment_intent_id"
  if ¬(strStartsWith pi "pi_" = true) then
    throw ("Invalid payment_intent_id (should start with pi_): " ++ pi)
  let date0 :=
    strOr
      (strOr
        (strOr (strOr (rowGet row "date") (rowGet row "created date (utc)"))
          (rowGet row "created (utc)"))
        (rowGet row "transaction_date"))
      (rowGet row "created")
  if date0 = "" then throw "Missing date"
  let txDate ←
    match parse_date date0 with
    | Option.some d => pure d
    | Option.none => throw ("Could not parse date: " ++ date0)
  let phone := strOr (rowGet row "phone") (rowGet row "customer phone")
  let chargeId := strOr (rowGet row "charge_id") (rowGet row "id")
  let btxId :=
    strOr (rowGet row "balance_transaction_id") (rowGet row "balance_txn")
  pure
    { email := email
      name := name
      first_name := nameParts.2.1
      last_name := nameParts.2.2
      amount := amount
      fee := fee
      payment_intent_id := pi
      transaction_date := txDate
      phone := phone
      charge_id := chargeId
      balance_transaction_id := btxId }

/-- Python `int(...)` applied to a `Decimal`: truncation toward zero. -/
def pythonInt (q : Rat) : Int := q.num.tdiv q.den

/-- The fee record the importer creates for a row (lines 184-199):
`gross_pence = int(amount * 100)`, `fee_pence = int(fee * 100)`,
`net_pence = gross_pence - fee_pence`. -/
def importTransaction (txId regId : Nat) (v : ValidatedRow) :
    StripeTransaction :=
  let gross_pence := pythonInt (v.amount * 100)
  let fee_pence := pythonInt (v.fee * 100)
  { id := txId
    transaction_type := "workshop"
    workshop_registrationId := Option.some regId
    concert_orderId := Option.none
    payment_intent_id := v.payment_intent_id
    charge_id := v.charge_id
    balance_transaction_id := v.balance_transaction_id
    gross_amount := gross_pence
    stripe_fee := fee_pence
    net_amount := gross_pence - fee_pence
    transaction_date := v.transaction_date }

/-- Validate all rows, collecting successes and per-row error messages
(`Row {i}: {e}`, rows numbered from `start`). -/
def validateAllFrom : List Row → Nat → List ValidatedRow × List String
  | [], _ => ([], [])
  | r :: rest, i =>
      let tail := validateAllFrom rest (i + 1)
      match validate_row r with
      | Except.ok v => (v :: tail.1, tail.2)
      | Except.error e =>
          (tail.1, ("Row " ++ toString i ++ ": " ++ e) :: tail.2)

/-- The validation pass of `Command.handle` (lines 84-94). -/
def validateAll (rows : List Row) : List ValidatedRow × List String :=
  validateAllFrom rows 1

/-- Whether the user carrying this email is already registered for the
workshop (`Command.handle` lines 108-114). -/
def isExistingRegistered (db : DB) (wid : Nat) (email : String) : Bool :=
  match db.users.find? (·.email == email) with
  | Option.some u =>
      db.registrations.any fun r => r.workshopId == wid && r.userId == u.id
  | Option.none => false

/-- The emails skipped as already registered. -/
def existingEmails (db : DB) (wid : Nat) (vs : List ValidatedRow) :
    List String :=
  (vs.filter fun v => isExistingRegistered db wid v.email).map (·.email)

/-- Fresh primary keys for the rows the importer creates. -/
def freshUserId (db : DB) : Nat := (db.users.map (·.id)).foldr max 0 + 1

def freshRegId (db : DB) : Nat :=
  (db.registrations.map (·.id)).foldr max 0 + 1

def freshTxId (db : DB) : Nat :=
  (db.transactions.map (·.id)).foldr max 0 + 1

/-- `Command.get_or_create_user` (lines 351-379): reuse the account with
this email, otherwise create one with a username derived from the email
(no lower-casing here, unlike the registration form) and an unusable
password. -/
def importGetOrCreateUser (db : DB) (v : ValidatedRow) : DB × Nat × Bool :=
  match db.users.find? (·.email == v.email) with
  | Option.some u => (db, u.id, false)
  | Option.none =>
      let base := emailLocalPart v.email
      let uname := freshUsername db.users base
      let uid := freshUserId db
      ({ db with
          users := db.users ++
            [{ id := uid
               username := uname
               email := v.email
               first_name := v.first_name
               last_name := v.last_name
               usable_password := false }] },
        uid, true)

/-- The registration row the importer creates (lines 169-180). -/
def importRegistration (regId wid uid : Nat) (v : ValidatedRow) :
    WorkshopRegistration :=
  { id := regId
    workshopId := wid
    userId := uid
    status := RegStatus.paid
    amount_paid := v.amount
    stripe_payment_intent_id := v.payment_intent_id
    stripe_checkout_session_id := ""
    confirmation_sent := true }

/-- The write loop inside `transaction.atomic()` (lines 157-200): skip rows
whose email is in the existing list; for the rest create the user if
needed, a paid registration (running the count hook) and a fee record.
Returns the database and the `created_users`, `created_registrations`,
`created_transactions` counters. -/
def importLoop (db : DB) (wid : Nat) (skip : List String) :
    List ValidatedRow → DB × Nat × Nat × Nat
  | [] => (db, 0, 0, 0)
  | v :: rest =>
      if skip.contains v.email then importLoop db wid skip rest
      else
        let step := importGetOrCreateUser db v
        let db1 := step.1
        let uid := step.2.1
        let userCreated := step.2.2
        let reg := importRegistration (freshRegId db1) wid uid v
        let db2 := saveRegistration db1 reg
        let tx := importTransaction (freshTxId db2) reg.id v
        let db3 := { db2 with transactions := db2.transactions ++ [tx] }
        let tail := importLoop db3 wid skip rest
        (tail.1,
          tail.2.1 + (if userCreated then 1 else 0),
          tail.2.2.1 + 1,
          tail.2.2.2 + 1)

/-- The outcome of one importer invocation. -/
inductive ImportOutcome where
  | workshopNotFound
  | emptyFile
  | validationFailed (errs : List String)
  | duplicateEmails (dups : List String)
  | nothingToImport
  | imported (createdUsers createdRegs createdTxs : Nat)
deriving DecidableEq, Repr

/-- `Command.handle` without `--dry-run` (lines 55-214): all-rows
validation aborting with the full error list, duplicate-email rejection,
skip computation, the atomic write loop, and the guarded
`legacy_bookings` decrement (applied only when the stale counter is at
least the number of registrations created). -/
def import_legacy_bookings (db : DB) (wid : Nat) (rows : List Row) :
    DB × ImportOutcome :=
  match db.workshops.find? (·.id == wid) with
  | Option.none => (db, ImportOutcome.workshopNotFound)
  | Option.some w =>
      if rows.isEmpty then (db, ImportOutcome.emptyFile)
      else
        let vres := validateAll rows
        let vs := vres.1
        let errs := vres.2
        if ¬errs.isEmpty then (db, ImportOutcome.validationFailed errs)
        else
          let emails := vs.map (·.email)
          let dups := (emails.filter fun e => emails.count e > 1).dedup
          if ¬dups.isEmpty then (db, ImportOutcome.duplicateEmails dups)
          else
            let existing := existingEmails db wid vs
            if vs.length - existing.length = 0 then
              (db, ImportOutcome.nothingToImport)
            else
              let res := importLoop db wid existing vs
              let db1 := res.1
              let created := res.2.2.1
              let db2 :=
                if w.legacy_bookings ≥ created then
                  { db1 with
                    workshops := updateWorkshop db1.workshops wid fun wc =>
                      { wc with
                        legacy_bookings := w.legacy_bookings - created } }
                else db1
              (db2, ImportOutcome.imported res.2.1 created res.2.2.2)

/-! ## Claim-side (spec-shaped) definitions used for refinement claims -/

/-- The remaining-capacity formula as the claim states it:
`max(0, capacity − confirmed_count)`. -/
def claimRemaining (capacity confirmed : Nat) : Int :=
  max 0 ((capacity : Int) - (confirmed : Int))

/-- The sold-out predicate as the claim states it: capacity is set and
`confirmed_count ≥ capacity` (false when capacity is unset). -/
def claimSoldOut (capacity : Option Nat) (confirmed : Nat) : Bool :=
  match capacity with
  | Option.some cap => confirmed ≥ cap
  | Option.none => false

/-! ## C9: UK tax year -/

/-- C9: `get_uk_tax_year_dates()` returns the UK tax year (6 April to
5 April) containing today: on 2025-04-05 it returns
(2024-04-06, 2025-04-05), and on 2025-04-06 it returns
(2025-04-06, 2026-04-05). -/
theorem C9_uk_tax_year_dates :
    get_uk_tax_year_dates ⟨2025, 4, 5⟩ = (⟨2024, 4, 6⟩, ⟨2025, 4, 5⟩) ∧
    get_uk_tax_year_dates ⟨2025, 4, 6⟩ = (⟨2025, 4, 6⟩, ⟨2026, 4, 5⟩) := by
  constructor <;> simp [get_uk_tax_year_dates]

/-! ## C2: capacity formulas (corrected) -/

/-- C2 counterexample: the claim's formulas disagree with the code.  A
workshop with `legacy_bookings = 3` has `places_remaining = 5`, not
`max(0, 10 − 2) = 8`, and fills up from legacy bookings alone; a concert
with external ticketing, capacity 10 and 10 tickets sold is not
`is_sold_out` although the claim's predicate holds. -/
theorem C2_capacity_counterexample :
    (Workshop.places_remaining ⟨1, 40, 10, 2, 3⟩ = 5 ∧
      claimRemaining 10 2 = 8) ∧
    (Workshop.is_full ⟨1, 40, 10, 2, 9⟩ = true ∧
      claimSoldOut (Option.some 10) 2 = false) ∧
    (Concert.is_sold_out
        ⟨1, TicketSource.external, 20, 15, Option.some 10, 10⟩ = false ∧
      claimSoldOut (Option.some 10) 10 = true) := by
  refine ⟨⟨?_, ?_⟩, ⟨?_, ?_⟩, ?_, ?_⟩ <;> decide

/-- C2 as amended: the workshop formulas hold with the confirmed count read
as `total_bookings = current_registrations + legacy_bookings` (workshop
capacity is always set); the concert predicates additionally require
internal ticket sales and a nonzero capacity, `tickets_remaining` being
`None` otherwise. -/
theorem C2_capacity_amended (w : Workshop) (c : Concert) :
    w.places_remaining = claimRemaining w.max_participants w.total_bookings ∧
    (w.is_full = true ↔ w.total_bookings ≥ w.max_participants) ∧
    (c.is_sold_out = true ↔
      c.ticket_source = TicketSource.internal ∧
        ∃ cap, c.capacity = Option.some cap ∧ 0 < cap ∧
          c.tickets_sold ≥ cap) ∧
    (∀ cap, c.ticket_source = TicketSource.internal →
      c.capacity = Option.some cap → 0 < cap →
      c.tickets_remaining = Option.some (claimRemaining cap c.tickets_sold)) ∧
    ((c.ticket_source ≠ TicketSource.internal ∨ c.capacity = Option.none ∨
        c.capacity = Option.some 0) →
      c.tickets_remaining = Option.none) := by
  obtain ⟨cid, ts, fp, dp, cap, sold⟩ := c
  refine ⟨rfl, ?_, ?_, ?_, ?_⟩
  · simp [Workshop.is_full]
  · cases ts <;> cases cap <;>
      simp [Concert.is_sold_out, Concert.capacityTruthy] <;> omega
  · intro cap2 hts hcap hpos
    cases hcap
    subst hts
    simp_all [Concert.tickets_remaining, Concert.capacityTruthy,
      claimRemaining]
    omega
  · rintro (hts | hcap | hcap)
    · cases ts <;> simp_all [Concert.tickets_remaining]
    · cases hcap
      cases ts <;> simp [Concert.tickets_remaining, Concert.capacityTruthy]
    · cases hcap
      cases ts <;> simp [Concert.tickets_remaining, Concert.capacityTruthy]

/-- Witness for `C2_capacity_amended` at a concrete workshop and concert. -/
theorem C2_capacity_amended_witness :
    Workshop.places_remaining ⟨1, 40, 10, 2, 3⟩ = claimRemaining 10 5 ∧
    Concert.tickets_remaining
        ⟨1, TicketSource.internal, 20, 15, Option.some 10, 4⟩ =
      Option.some (claimRemaining 10 4) := by
  refine ⟨(C2_capacity_amended ⟨1, 40, 10, 2, 3⟩
      ⟨1, TicketSource.internal, 20, 15, Option.some 10, 4⟩).1, ?_⟩
  exact (C2_capacity_amended ⟨1, 40, 10, 2, 3⟩
      ⟨1, TicketSource.internal, 20, 15, Option.some 10, 4⟩).2.2.2.1
    10 rfl rfl (by decide)

/-! ## C5: webhook response codes (corrected) -/

/-- C5 counterexample: with a signing secret configured, a request whose
signature is valid but whose payload does not parse is answered 400, so
"400 iff signature verification fails" is false as stated. -/
theorem C5_webhook_status_counterexample :
    (stripe_webhook ⟨[], [], [], [], [], []⟩
        ⟨true, true, false⟩ WebhookEvent.otherType).2 = 400 ∧
    WebhookRequest.signatureValid ⟨true, true, false⟩ = true := by
  decide

/-- C5 as amended: the endpoint answers 400 exactly when the
verify/parse step fails — an unparseable payload, or a configured secret
with an invalid signature — and 200 in every other case, in particular
whether or not the event matched any order. -/
theorem C5_webhook_status_amended (db : DB) (req : WebhookRequest)
    (ev : WebhookEvent) :
    ((stripe_webhook db req ev).2 = 400 ↔
      (req.payloadParses = false ∨
        (req.secretConfigured = true ∧ req.signatureValid = false))) ∧
    ((stripe_webhook db req ev).2 = 400 ∨
      (stripe_webhook db req ev).2 = 200) ∧
    (verify_webhook_ok req = true → (stripe_webhook db req ev).2 = 200) := by
  obtain ⟨sc, sv, pp⟩ := req
  cases sc <;> cases sv <;> cases pp <;>
    simp [stripe_webhook, verify_webhook_ok]

/-- Witness for `C5_webhook_status_amended`: an unverified-parse request is
answered 200 regardless of event contents. -/
theorem C5_webhook_status_witness :
    (stripe_webhook ⟨[], [], [], [], [], []⟩
        ⟨false, false, true⟩ WebhookEvent.completedOther).2 = 200 :=
  (C5_webhook_status_amended ⟨[], [], [], [], [], []⟩
      ⟨false, false, true⟩ WebhookEvent.completedOther).2.2 (by decide)

/-! ## C8: money round-trip -/

/-- C8: every fee record created by the legacy importer satisfies
`gross_amount − stripe_fee = net_amount` unconditionally (the importer
computes the net that way); every record the fee-sync command creates or
force-updates satisfies it whenever the processor's balance transaction is
internally consistent (`amount − fee = net`, which is the processor's
documented contract). -/
theorem C8_money_roundtrip :
    (∀ txId regId v,
      (importTransaction txId regId v).gross_amount -
          (importTransaction txId regId v).stripe_fee =
        (importTransaction txId regId v).net_amount) ∧
    (∀ txId tt regId oid pid cid bt, bt.amount - bt.fee = bt.net →
      (syncCreateTransaction txId tt regId oid pid cid bt).gross_amount -
          (syncCreateTransaction txId tt regId oid pid cid bt).stripe_fee =
        (syncCreateTransaction txId tt regId oid pid cid bt).net_amount) ∧
    (∀ ex cid bt, bt.amount - bt.fee = bt.net →
      (syncUpdateTransaction ex cid bt).gross_amount -
          (syncUpdateTransaction ex cid bt).stripe_fee =
        (syncUpdateTransaction ex cid bt).net_amount) := by
  refine ⟨fun txId regId v => rfl, fun txId tt regId oid pid cid bt h => h,
    fun ex cid bt h => h⟩

/-- Witness for `C8_money_roundtrip` on a concrete balance transaction. -/
theorem C8_money_roundtrip_witness :
    (syncCreateTransaction 1 "workshop" (Option.some 1) Option.none
        "pi_a" "ch_a" ⟨"txn_a", 4500, 135, 4365, ⟨2024, 1, 15⟩⟩).gross_amount -
      (syncCreateTransaction 1 "workshop" (Option.some 1) Option.none
        "pi_a" "ch_a" ⟨"txn_a", 4500, 135, 4365, ⟨2024, 1, 15⟩⟩).stripe_fee =
      (syncCreateTransaction 1 "workshop" (Option.some 1) Option.none
        "pi_a" "ch_a" ⟨"txn_a", 4500, 135, 4365, ⟨2024, 1, 15⟩⟩).net_amount :=
  C8_money_roundtrip.2.1 1 "workshop" (Option.some 1) Option.none
    "pi_a" "ch_a" ⟨"txn_a", 4500, 135, 4365, ⟨2024, 1, 15⟩⟩ (by decide)

/-! ## C10: pounds conversion is a homomorphism over summation -/

/-- `to_pounds` distributes over a list sum. -/
theorem to_pounds_sum (l : List Int) :
    to_pounds (Option.some l.sum) =
      (l.map fun n => to_pounds (Option.some n)).sum := by
  induction l with
  | nil => simp [to_pounds]
  | cons a t ih =>
      simp only [List.sum_cons, List.map_cons, to_pounds, Option.getD_some] at *
      rw [Int.cast_add, add_div, ih]

/-- `to_pounds` of a Django `Sum` result equals the per-row conversion
sum (the `None`-on-empty case contributes zero). -/
theorem to_pounds_sumOpt (l : List Int) :
    to_pounds (sumOpt l) = (l.map fun n => to_pounds (Option.some n)).sum := by
  cases l with
  | nil => simp [sumOpt, to_pounds]
  | cons a t => exact to_pounds_sum (a :: t)

/-- C10: converting the summed pence once equals summing the per-row
converted pound values — exactly, hence in particular within one
minor-unit tolerance — and each combined total of the income summary
equals the sum of the per-stream converted values. -/
theorem C10_pounds_homomorphism :
    (∀ l : List Int,
      to_pounds (Option.some l.sum) =
        (l.map fun n => to_pounds (Option.some n)).sum) ∧
    (∀ txs s e,
      (get_income_summary txs s e).total_gross =
          ((workshopRows txs s e ++ concertRows txs s e).map fun t =>
            to_pounds (Option.some t.gross_amount)).sum ∧
      (get_income_summary txs s e).total_fees =
          ((workshopRows txs s e ++ concertRows txs s e).map fun t =>
            to_pounds (Option.some t.stripe_fee)).sum ∧
      (get_income_summary txs s e).total_net =
          ((workshopRows txs s e ++ concertRows txs s e).map fun t =>
            to_pounds (Option.some t.net_amount)).sum ∧
      (get_income_summary txs s e).total_gross =
          (get_income_summary txs s e).workshop_gross +
            (get_income_summary txs s e).concert_gross ∧
      (get_income_summary txs s e).total_fees =
          (get_income_summary txs s e).workshop_fees +
            (get_income_summary txs s e).concert_fees ∧
      (get_income_summary txs s e).total_net =
          (get_income_summary txs s e).workshop_net +
            (get_income_summary txs s e).concert_net) := by
  refine ⟨to_pounds_sum, fun txs s e => ?_⟩
  refine ⟨?_, ?_, ?_, rfl, rfl, rfl⟩ <;>
    simp only [get_income_summary, List.map_append, List.sum_append,
      to_pounds_sumOpt, List.map_map] <;> rfl

/-! ## List helper lemmas shared by the confirmation-workflow claims -/

/-- If the rows carrying a session id are exactly `[o]` and `o` is pending,
the webhook's lookup finds `o`. -/
theorem filter_singleton_find? (l : List ConcertTicketOrder) (sid : String)
    (o : ConcertTicketOrder)
    (h : l.filter (fun x => x.stripe_checkout_session_id == sid) = [o])
    (hp : o.status = OrderStatus.pending) :
    l.find? (fun x =>
        x.stripe_checkout_session_id == sid &&
          x.status == OrderStatus.pending) = Option.some o := by
  induction l with
  | nil => simp at h
  | cons a t ih =>
      cases ha : (a.stripe_checkout_session_id == sid) with
      | true =>
          rw [List.filter_cons, if_pos ha] at h
          injection h with h1 h2
          subst h1
          have hpa : (a.stripe_checkout_session_id == sid &&
              a.status == OrderStatus.pending) = true := by
            simp [ha, hp]
          simp [List.find?_cons, hpa]
      | false =>
          rw [List.filter_cons, if_neg (by simp [ha])] at h
          have hpa : (a.stripe_checkout_session_id == sid &&
              a.status == OrderStatus.pending) = false := by simp [ha]
          simp only [List.find?_cons, hpa]
          exact ih h

/-- Marking the first pending order paid turns the session's row set from
`[o]` (pending) into `[o marked paid]`. -/
theorem markFirst_filter (l : List ConcertTicketOrder) (sid : String)
    (o : ConcertTicketOrder)
    (h : l.filter (fun x => x.stripe_checkout_session_id == sid) = [o])
    (hp : o.status = OrderStatus.pending) :
    (markFirstOrderPaid l sid).filter
        (fun x => x.stripe_checkout_session_id == sid) =
      [{ o with status := OrderStatus.paid }] := by
  induction l with
  | nil => simp at h
  | cons a t ih =>
      cases ha : (a.stripe_checkout_session_id == sid) with
      | true =>
          rw [List.filter_cons, if_pos ha] at h
          injection h with h1 h2
          subst h1
          rw [markFirstOrderPaid]
          have hcond : (a.stripe_checkout_session_id == sid &&
              a.status == OrderStatus.pending) = true := by simp [ha, hp]
          rw [if_pos hcond]
          have hstill : (({ a with status := OrderStatus.paid }
              : ConcertTicketOrder).stripe_checkout_session_id == sid)
              = true := ha
          rw [List.filter_cons, if_pos hstill, h2]
      | false =>
          rw [List.filter_cons, if_neg (by simp [ha])] at h
          rw [markFirstOrderPaid]
          have hcond : (a.stripe_checkout_session_id == sid &&
              a.status == OrderStatus.pending) = false := by simp [ha]
          rw [if_neg (by simp [hcond])]
          rw [List.filter_cons, if_neg (by simp [ha])]
          exact ih h

/-- After the first webhook call, no pending order carries the session id
any more. -/
theorem markFirst_find?_none (l : List ConcertTicketOrder) (sid : String)
    (o : ConcertTicketOrder)
    (h : l.filter (fun x => x.stripe_checkout_session_id == sid) = [o])
    (hp : o.status = OrderStatus.pending) :
    (markFirstOrderPaid l sid).find? (fun x =>
        x.stripe_checkout_session_id == sid &&
          x.status == OrderStatus.pending) = Option.none := by
  rw [List.find?_eq_none]
  intro x hx hpx
  have hsid : (x.stripe_checkout_session_id == sid) = true := by
    simp only [Bool.and_eq_true] at hpx
    exact hpx.1
  have hxmem : x ∈ (markFirstOrderPaid l sid).filter
      (fun x => x.stripe_checkout_session_id == sid) :=
    List.mem_filter.mpr ⟨hx, hsid⟩
  rw [markFirst_filter l sid o h hp] at hxmem
  simp only [List.mem_singleton] at hxmem
  subst hxmem
  simp only [Bool.and_eq_true, beq_iff_eq] at hpx
  exact OrderStatus.noConfusion hpx.2

/-- `markFirstOrderPaid` preserves the ledger's length (the webhook never
creates an order row). -/
theorem markFirst_length (l : List ConcertTicketOrder) (sid : String) :
    (markFirstOrderPaid l sid).length = l.length := by
  induction l with
  | nil => rfl
  | cons a t ih =>
      rw [markFirstOrderPaid]
      by_cases hc : (a.stripe_checkout_session_id == sid &&
          a.status == OrderStatus.pending) = true
      · rw [if_pos hc]; simp
      · rw [if_neg hc]; simp [ih]

/-- If no row carries the session id in pending state, the marking pass is
the identity. -/
theorem markFirst_id (l : List ConcertTicketOrder) (sid : String)
    (h : ∀ o ∈ l, o.stripe_checkout_session_id = sid →
      o.status ≠ OrderStatus.pending) :
    markFirstOrderPaid l sid = l := by
  induction l with
  | nil => rfl
  | cons a t ih =>
      rw [markFirstOrderPaid]
      have hc : (a.stripe_checkout_session_id == sid &&
          a.status == OrderStatus.pending) = false := by
        by_cases hs : a.stripe_checkout_session_id = sid
        · have := h a (List.mem_cons_self a t) hs
          simp [hs, this]
        · simp [hs]
      rw [if_neg (by simp [hc])]
      rw [ih fun o ho => h o (List.mem_cons_of_mem a ho)]

/-- Primary-key lookup after a pk-targeted concert update. -/
theorem find?_updateConcert (l : List Concert) (cid : Nat)
    (g : Concert → Concert) (hg : ∀ c, (g c).id = c.id) :
    (updateConcert l cid g).find? (·.id == cid) =
      (l.find? (·.id == cid)).map g := by
  induction l with
  | nil => rfl
  | cons a t ih =>
      rw [updateConcert, List.map_cons]
      by_cases ha : (a.id == cid) = true
      · rw [if_pos ha]
        have hga : ((g a).id == cid) = true := by
          rw [hg a]; exact ha
        simp only [List.find?_cons, hga, ha]
        rfl
      · rw [if_neg ha]
        have ha2 : (a.id == cid) = false := by
          simp only [Bool.not_eq_true] at ha; exact ha
        simp only [List.find?_cons, ha2]
        exact ih

/-- Primary-key lookup after a pk-targeted workshop update. -/
theorem find?_updateWorkshop (l : List Workshop) (wid : Nat)
    (g : Workshop → Workshop) (hg : ∀ w, (g w).id = w.id) :
    (updateWorkshop l wid g).find? (·.id == wid) =
      (l.find? (·.id == wid)).map g := by
  induction l with
  | nil => rfl
  | cons a t ih =>
      rw [updateWorkshop, List.map_cons]
      by_cases ha : (a.id == wid) = true
      · rw [if_pos ha]
        have hga : ((g a).id == wid) = true := by
          rw [hg a]; exact ha
        simp only [List.find?_cons, hga, ha]
        rfl
      · rw [if_neg ha]
        have ha2 : (a.id == wid) = false := by
          simp only [Bool.not_eq_true] at ha; exact ha
        simp only [List.find?_cons, ha2]
        exact ih

/-- Replacing (by pk) the first row that a predicate finds with a row that
still satisfies the predicate makes the lookup find the replacement. -/
theorem find?_map_replace (l : List WorkshopRegistration)
    (p : WorkshopRegistration → Bool) (r r2 : WorkshopRegistration)
    (h : l.find? p = Option.some r) (h2 : p r2 = true) :
    (l.map fun x => if x.id == r.id then r2 else x).find? p =
      Option.some r2 := by
  induction l with
  | nil => simp at h
  | cons a t ih =>
      by_cases ha : p a = true
      · simp only [List.find?_cons, ha] at h
        injection h with h
        subst h
        rw [List.map_cons, if_pos (by simp)]
        simp only [List.find?_cons, h2]
      · have ha2 : p a = false := by
          simp only [Bool.not_eq_true] at ha; exact ha
        simp only [List.find?_cons, ha2] at h
        rw [List.map_cons]
        by_cases hid : (a.id == r.id) = true
        · rw [if_pos hid]
          simp only [List.find?_cons, h2]
        · rw [if_neg hid]
          simp only [List.find?_cons, ha2]
          exact ih h

/-- Frame lemma: when the pair lookup yields nothing pending, the workshop
webhook branch performs no mutation. -/
theorem workshopWebhook_noop (db : DB) (wid uid : Nat) (sid : String)
    (h : ∀ r, db.registrations.find?
        (fun x => x.workshopId == wid && x.userId == uid) = Option.some r →
      r.status ≠ RegStatus.pending) :
    workshopWebhook db ⟨Option.some wid, Option.some uid, sid⟩ = db := by
  simp only [workshopWebhook]
  split
  · split
    · next r hr =>
        rw [if_neg]
        intro hcontra
        exact h r hr hcontra
    · rfl
  · rfl

/-- Frame lemma: when no pending order carries the session id, the concert
webhook branch performs no mutation. -/
theorem concertWebhook_noop (db : DB) (md : ConcertMeta)
    (h : ∀ o ∈ db.orders, o.stripe_checkout_session_id = md.session_id →
      o.status ≠ OrderStatus.pending) :
    concertWebhook db md = db := by
  have hf : db.orders.find? (fun o =>
      o.stripe_checkout_session_id == md.session_id &&
        o.status == OrderStatus.pending) = Option.none := by
    rw [List.find?_eq_none]
    intro x hx hpx
    simp only [Bool.and_eq_true, beq_iff_eq] at hpx
    exact h x hx hpx.1 hpx.2
  simp only [concertWebhook]
  split
  · rfl
  · rw [hf]

/-- The ledger after saving an already-present registration row. -/
theorem saveRegistration_registrations (db : DB)
    (r2 : WorkshopRegistration)
    (hany : db.registrations.any (·.id == r2.id) = true) :
    (saveRegistration db r2).registrations =
      db.registrations.map fun x => if x.id == r2.id then r2 else x := by
  simp [saveRegistration, hany]

/-! ## C1: idempotence of the two payment-confirmation handlers -/

/-- C1: a second webhook invocation with the same checkout-session id is a
no-op: for concerts, when the session id identifies a single pending order,
the first call leaves exactly one paid row for that session and adds the
order quantity to the concert's counter exactly once, and the second call
changes nothing; the workshop branch is idempotent unconditionally; and a
second run of the success-redirect handler over a session id it has already
processed performs no mutation and only reports success. -/
theorem C1_payment_confirmation_idempotent :
    (∀ (db : DB) (md : ConcertMeta) (o : ConcertTicketOrder) (c : Concert),
      db.orders.filter
          (fun x => x.stripe_checkout_session_id == md.session_id) = [o] →
      o.status = OrderStatus.pending →
      db.concerts.find? (·.id == o.concertId) = Option.some c →
      concertWebhook (concertWebhook db md) md = concertWebhook db md ∧
      (md.concert_id.isSome →
        (((concertWebhook db md).orders.filter
              (fun x => x.stripe_checkout_session_id == md.session_id)).filter
            (fun x => x.status == OrderStatus.paid)).length = 1 ∧
        (concertWebhook db md).concerts.find? (·.id == o.concertId) =
          Option.some
            { c with tickets_sold := c.tickets_sold + o.quantity })) ∧
    (∀ (db : DB) (md : WorkshopMeta),
      workshopWebhook (workshopWebhook db md) md = workshopWebhook db md) ∧
    (∀ (stripePaid : String → Option Bool) (db : DB) (br : Browser)
        (concert : Concert) (sid : String) (n1 n2 : Nat) (d1 : DB)
        (b1 : Browser) (o1 : SuccessOutcome),
      checkout_success stripePaid db br concert (Option.some sid) n1 =
        (d1, b1, o1) →
      (o1 = SuccessOutcome.successAlready ∨
        o1 = SuccessOutcome.successCreated) →
      checkout_success stripePaid d1 b1 concert (Option.some sid) n2 =
        (d1, b1, SuccessOutcome.successAlready)) := by
  refine ⟨?_, ?_, ?_⟩
  · -- concert webhook
    rintro db ⟨cid?, sid⟩ o c hf hp hc
    cases cid? with
    | none => simp [concertWebhook]
    | some cid =>
        have h1 : db.orders.find? (fun x =>
            x.stripe_checkout_session_id == sid &&
              x.status == OrderStatus.pending) = Option.some o :=
          filter_singleton_find? db.orders sid o hf hp
        have h2 : (markFirstOrderPaid db.orders sid).find? (fun x =>
            x.stripe_checkout_session_id == sid &&
              x.status == OrderStatus.pending) = Option.none :=
          markFirst_find?_none db.orders sid o hf hp
        have e1 : concertWebhook db ⟨Option.some cid, sid⟩ =
            { db with
              orders := markFirstOrderPaid db.orders sid
              concerts := updateConcert db.concerts o.concertId fun cc =>
                { cc with tickets_sold := cc.tickets_sold + o.quantity } } := by
          simp [concertWebhook, h1]
        refine ⟨?_, fun _ => ⟨?_, ?_⟩⟩
        · rw [e1]
          simp [concertWebhook, h2]
        · rw [e1]
          have := markFirst_filter db.orders sid o hf hp
          simp only [this]
          simp
        · rw [e1]
          have := find?_updateConcert db.concerts o.concertId
            (fun cc => { cc with tickets_sold := cc.tickets_sold + o.quantity })
            (fun cc => rfl)
          simp only [this, hc]
          rfl
  · -- workshop webhook
    rintro db ⟨wid?, uid?, sid⟩
    cases wid? with
    | none => simp [workshopWebhook]
    | some wid =>
        cases uid? with
        | none => simp [workshopWebhook]
        | some uid =>
            cases hfw : db.workshops.find? (·.id == wid) with
            | none =>
                have e1 : workshopWebhook db ⟨Option.some wid,
                    Option.some uid, sid⟩ = db := by
                  simp [workshopWebhook, hfw]
                rw [e1, e1]
            | some w =>
                cases hu : db.users.any (·.id == uid) with
                | false =>
                    have e1 : workshopWebhook db ⟨Option.some wid,
                        Option.some uid, sid⟩ = db := by
                      simp [workshopWebhook, hfw, hu]
                    rw [e1, e1]
                | true =>
                    cases hr : db.registrations.find? (fun r =>
                        r.workshopId == wid && r.userId == uid) with
                    | none =>
                        have e1 : workshopWebhook db ⟨Option.some wid,
                            Option.some uid, sid⟩ = db := by
                          simp [workshopWebhook, hfw, hu, hr]
                        rw [e1, e1]
                    | some r =>
                        by_cases hst : r.status = RegStatus.pending
                        · have hpredr := List.find?_some hr
                          have hmem : r ∈ db.registrations :=
                            List.mem_of_find?_eq_some hr
                          have hany : db.registrations.any
                              (·.id == r.id) = true :=
                            List.any_eq_true.mpr ⟨r, hmem, by simp⟩
                          have e1 : workshopWebhook db ⟨Option.some wid,
                              Option.some uid, sid⟩ =
                              saveRegistration db
                                { r with
                                  status := RegStatus.paid
                                  amount_paid := w.price
                                  stripe_checkout_session_id := sid } := by
                            simp [workshopWebhook, hfw, hu, hr, hst]
                          rw [e1]
                          apply workshopWebhook_noop
                          intro rr hrr
                          rw [saveRegistration_registrations db
                            { r with
                              status := RegStatus.paid
                              amount_paid := w.price
                              stripe_checkout_session_id := sid }
                            hany,
                            find?_map_replace db.registrations _ r
                            { r with
                              status := RegStatus.paid
                              amount_paid := w.price
                              stripe_checkout_session_id := sid }
                            hr hpredr] at hrr
                          injection hrr with hrr
                          subst hrr
                          simp
                        · have e1 : workshopWebhook db ⟨Option.some wid,
                              Option.some uid, sid⟩ = db := by
                            simp [workshopWebhook, hfw, hu, hr, hst]
                          rw [e1, e1]
  · -- success-redirect handler, second invocation
    intro stripePaid db br concert sid n1 n2 d1 b1 o1 h hout
    cases hsp : stripePaid sid with
    | none =>
        rw [checkout_success] at h
        simp only [hsp] at h
        injection h with h1 h
        injection h with h2 h3
        subst h3
        rcases hout with h | h <;> exact SuccessOutcome.noConfusion h
    | some paidStatus =>
        cases paidStatus with
        | false =>
            rw [checkout_success] at h
            simp only [hsp, Bool.not_false, if_true] at h
            injection h with h1 h
            injection h with h2 h3
            subst h3
            rcases hout with h | h <;> exact SuccessOutcome.noConfusion h
        | true =>
            rw [checkout_success] at h
            simp only [hsp, Bool.not_true, if_false] at h
            cases hco : br.concert_order with
            | none =>
                simp only [hco] at h
                cases hex : db.orders.any
                    (·.stripe_checkout_session_id == sid) with
                | false =>
                    simp only [hex] at h
                    injection h with h1 h
                    injection h with h2 h3
                    subst h3
                    rcases hout with h | h <;>
                      exact SuccessOutcome.noConfusion h
                | true =>
                    simp only [hex] at h
                    injection h with h1 h
                    injection h with h2 h3
                    subst h1; subst h2
                    rw [checkout_success]
                    simp [hsp, hco, hex]
            | some od =>
                by_cases hmatch : (od.concert_id == concert.id) = true
                · simp only [hco, hmatch, if_pos] at h
                  cases hex : db.orders.any
                      (·.stripe_checkout_session_id == sid) with
                  | true =>
                      simp only [hex, if_true] at h
                      injection h with h1 h
                      injection h with h2 h3
                      subst h1; subst h2
                      rw [checkout_success]
                      simp [hsp, clearConcertStaging, hex]
                  | false =>
                      simp only [hex] at h
                      injection h with h1 h
                      injection h with h2 h3
                      subst h1; subst h2
                      rw [checkout_success]
                      simp [hsp, clearConcertStaging, List.any_append]
                · simp only [hco, hmatch] at h
                  cases hex : db.orders.any
                      (·.stripe_checkout_session_id == sid) with
                  | false =>
                      simp only [hex] at h
                      injection h with h1 h
                      injection h with h2 h3
                      subst h3
                      rcases hout with h | h <;>
                        exact SuccessOutcome.noConfusion h
                  | true =>
                      simp only [hex] at h
                      injection h with h1 h
                      injection h with h2 h3
                      subst h1; subst h2
                      rw [checkout_success]
                      simp [hsp, hco, hmatch, hex]

/-- Witness for `C1_payment_confirmation_idempotent` on a one-order
database: the second webhook call changes nothing, the counter is
incremented once, and the second success-redirect run only reports
success. -/
theorem C1_payment_confirmation_idempotent_witness :
    (concertWebhook
        (concertWebhook
          ⟨[], [], [],
            [⟨7, TicketSource.internal, 10, 8, Option.some 100, 0⟩],
            [⟨1, 7, "e", "n", "", "full", 2, 10, 20, OrderStatus.pending,
              "cs_1", false, false⟩], []⟩
          ⟨Option.some 7, "cs_1"⟩)
        ⟨Option.some 7, "cs_1"⟩ =
      concertWebhook
        ⟨[], [], [],
          [⟨7, TicketSource.internal, 10, 8, Option.some 100, 0⟩],
          [⟨1, 7, "e", "n", "", "full", 2, 10, 20, OrderStatus.pending,
            "cs_1", false, false⟩], []⟩
        ⟨Option.some 7, "cs_1"⟩) ∧
    ((concertWebhook
        ⟨[], [], [],
          [⟨7, TicketSource.internal, 10, 8, Option.some 100, 0⟩],
          [⟨1, 7, "e", "n", "", "full", 2, 10, 20, OrderStatus.pending,
            "cs_1", false, false⟩], []⟩
        ⟨Option.some 7, "cs_1"⟩).concerts.find? (·.id == 7) =
      Option.some ⟨7, TicketSource.internal, 10, 8, Option.some 100, 2⟩) ∧
    (checkout_success (fun _ => Option.some true)
        ⟨[], [], [],
          [⟨7, TicketSource.internal, 10, 8, Option.some 100, 0⟩],
          [⟨1, 7, "e", "n", "", "full", 2, 10, 20, OrderStatus.pending,
            "cs_1", false, false⟩], []⟩
        ⟨Option.none, Option.none, Option.none⟩
        ⟨7, TicketSource.internal, 10, 8, Option.some 100, 0⟩
        (Option.some "cs_1") 6 =
      (⟨[], [], [],
          [⟨7, TicketSource.internal, 10, 8, Option.some 100, 0⟩],
          [⟨1, 7, "e", "n", "", "full", 2, 10, 20, OrderStatus.pending,
            "cs_1", false, false⟩], []⟩,
        ⟨Option.none, Option.none, Option.none⟩,
        SuccessOutcome.successAlready)) := by
  refine ⟨?_, ?_, ?_⟩
  · exact (C1_payment_confirmation_idempotent.1
      ⟨[], [], [],
        [⟨7, TicketSource.internal, 10, 8, Option.some 100, 0⟩],
        [⟨1, 7, "e", "n", "", "full", 2, 10, 20, OrderStatus.pending,
          "cs_1", false, false⟩], []⟩
      ⟨Option.some 7, "cs_1"⟩
      ⟨1, 7, "e", "n", "", "full", 2, 10, 20, OrderStatus.pending,
        "cs_1", false, false⟩
      ⟨7, TicketSource.internal, 10, 8, Option.some 100, 0⟩
      rfl rfl rfl).1
  · exact ((C1_payment_confirmation_idempotent.1
      ⟨[], [], [],
        [⟨7, TicketSource.internal, 10, 8, Option.some 100, 0⟩],
        [⟨1, 7, "e", "n", "", "full", 2, 10, 20, OrderStatus.pending,
          "cs_1", false, false⟩], []⟩
      ⟨Option.some 7, "cs_1"⟩
      ⟨1, 7, "e", "n", "", "full", 2, 10, 20, OrderStatus.pending,
        "cs_1", false, false⟩
      ⟨7, TicketSource.internal, 10, 8, Option.some 100, 0⟩
      rfl rfl rfl).2 rfl).2
  · exact C1_payment_confirmation_idempotent.2.2
      (fun _ => Option.some true)
      ⟨[], [], [],
        [⟨7, TicketSource.internal, 10, 8, Option.some 100, 0⟩],
        [⟨1, 7, "e", "n", "", "full", 2, 10, 20, OrderStatus.pending,
          "cs_1", false, false⟩], []⟩
      ⟨Option.none, Option.none, Option.none⟩
      ⟨7, TicketSource.internal, 10, 8, Option.some 100, 0⟩
      "cs_1" 5 6 _ _ _ rfl (Or.inl rfl)

/-! ## C3: cached confirmed counts versus the ledger (corrected) -/

/-- One step of the paid-quantity sum. -/
theorem sumPaid_cons (a : ConcertTicketOrder) (t : List ConcertTicketOrder)
    (cid : Nat) :
    sumPaidQuantities (a :: t) cid =
      (if (a.concertId == cid && a.status == OrderStatus.paid) = true then
        a.quantity else 0) + sumPaidQuantities t cid := by
  simp only [sumPaidQuantities, List.filter_cons]
  split
  · simp
  · simp

/-- Marking the unique pending order of a session paid adds exactly its
quantity to the paid-quantity sum of its concert (and nothing to any
other). -/
theorem sumPaid_markFirst (l : List ConcertTicketOrder) (sid : String)
    (o : ConcertTicketOrder)
    (h : l.filter (fun x => x.stripe_checkout_session_id == sid) = [o])
    (hp : o.status = OrderStatus.pending) (cid : Nat) :
    sumPaidQuantities (markFirstOrderPaid l sid) cid =
      sumPaidQuantities l cid +
        (if o.concertId = cid then o.quantity else 0) := by
  induction l with
  | nil => simp at h
  | cons a t ih =>
      cases ha : (a.stripe_checkout_session_id == sid) with
      | true =>
          rw [List.filter_cons, if_pos ha] at h
          injection h with h1 h2
          subst h1
          rw [markFirstOrderPaid,
            if_pos (by simp [ha, hp]),
            sumPaid_cons, sumPaid_cons]
          have ht : t.filter
              (fun x => x.stripe_checkout_session_id == sid) = [] := h2
          have hpend : (a.concertId == cid &&
              a.status == OrderStatus.paid) = false := by
            simp [hp]
          rw [hpend]
          by_cases hcid : a.concertId = cid
          · simp [hcid]
            omega
          · simp [hcid]
      | false =>
          rw [List.filter_cons, if_neg (by simp [ha])] at h
          rw [markFirstOrderPaid, if_neg (by simp [ha]),
            sumPaid_cons, sumPaid_cons, ih h]
          omega

/-- C3 counterexample: a save that merely changes an order's status (here
paid → refunded) does not touch `tickets_sold`, so the cached counter (1)
and the ledger-recomputed sum (0) disagree directly after a status-change
save, although they agreed before. -/
theorem C3_count_counterexample :
    sumPaidQuantities
        (⟨[], [], [],
          [⟨1, TicketSource.internal, 10, 8, Option.some 100, 1⟩],
          [⟨1, 1, "e", "n", "", "full", 1, 10, 10, OrderStatus.paid,
            "cs_9", true, true⟩], []⟩ : DB).orders 1 = 1 ∧
    sumPaidQuantities
        (saveOrder
          ⟨[], [], [],
            [⟨1, TicketSource.internal, 10, 8, Option.some 100, 1⟩],
            [⟨1, 1, "e", "n", "", "full", 1, 10, 10, OrderStatus.paid,
              "cs_9", true, true⟩], []⟩
          ⟨1, 1, "e", "n", "", "full", 1, 10, 10, OrderStatus.refunded,
            "cs_9", true, true⟩).orders 1 = 0 ∧
    ((saveOrder
          ⟨[], [], [],
            [⟨1, TicketSource.internal, 10, 8, Option.some 100, 1⟩],
            [⟨1, 1, "e", "n", "", "full", 1, 10, 10, OrderStatus.paid,
              "cs_9", true, true⟩], []⟩
          ⟨1, 1, "e", "n", "", "full", 1, 10, 10, OrderStatus.refunded,
            "cs_9", true, true⟩).concerts.find? (·.id == 1)).map
        (·.tickets_sold) = Option.some 1 := by
  exact ⟨by decide, by decide, by decide⟩

/-- C3 as amended: the recompute-on-save contract holds for workshops (any
registration save leaves the workshop's cached count equal to the
recomputed count); for concerts a plain order save never updates
`tickets_sold` (the model has no save hook), while the webhook's
pending→paid transition preserves the equality, adding exactly the order's
quantity to both sides. -/
theorem C3_count_reconciliation_amended :
    (∀ db r w,
      (saveRegistration db r).workshops.find? (·.id == r.workshopId) =
        Option.some w →
      w.current_registrations =
        countPaidAttended (saveRegistration db r).registrations
          r.workshopId) ∧
    (∀ db o, (saveOrder db o).concerts = db.concerts) ∧
    (∀ db (md : ConcertMeta) o c,
      db.orders.filter
          (fun x => x.stripe_checkout_session_id == md.session_id) = [o] →
      o.status = OrderStatus.pending →
      db.concerts.find? (·.id == o.concertId) = Option.some c →
      c.tickets_sold = sumPaidQuantities db.orders o.concertId →
      ∀ c1, (concertWebhook db md).concerts.find? (·.id == o.concertId) =
          Option.some c1 →
        c1.tickets_sold =
          sumPaidQuantities (concertWebhook db md).orders o.concertId) := by
  refine ⟨?_, fun db o => rfl, ?_⟩
  · intro db r w h
    simp only [saveRegistration] at h ⊢
    rw [find?_updateWorkshop _ _ _ ?hg] at h
    case hg => intro wc; rfl
    cases hfind : db.workshops.find? (·.id == r.workshopId) with
    | none => rw [hfind] at h; exact Option.noConfusion h
    | some w0 =>
        rw [hfind] at h
        injection h with h
        subst h
        rfl
  · rintro db ⟨cid?, sid⟩ o c hf hp hc hinv c1 h1
    cases cid? with
    | none =>
        simp only [concertWebhook] at h1 ⊢
        rw [hc] at h1
        injection h1 with h1
        subst h1
        exact hinv
    | some cid =>
        have hfind : db.orders.find? (fun x =>
            x.stripe_checkout_session_id == sid &&
              x.status == OrderStatus.pending) = Option.some o :=
          filter_singleton_find? db.orders sid o hf hp
        have e1 : concertWebhook db ⟨Option.some cid, sid⟩ =
            { db with
              orders := markFirstOrderPaid db.orders sid
              concerts := updateConcert db.concerts o.concertId fun cc =>
                { cc with tickets_sold := cc.tickets_sold + o.quantity } } := by
          simp [concertWebhook, hfind]
        rw [e1] at h1 ⊢
        have hfc := find?_updateConcert db.concerts o.concertId
          (fun cc => { cc with tickets_sold := cc.tickets_sold + o.quantity })
          (fun cc => rfl)
        rw [show ({ db with
            orders := markFirstOrderPaid db.orders sid
            concerts := updateConcert db.concerts o.concertId fun cc =>
              { cc with tickets_sold := cc.tickets_sold + o.quantity }
            : DB }).concerts =
          updateConcert db.concerts o.concertId (fun cc =>
            { cc with tickets_sold := cc.tickets_sold + o.quantity })
          from rfl, hfc, hc] at h1
        injection h1 with h1
        subst h1
        have hsum := sumPaid_markFirst db.orders sid o hf hp o.concertId
        simp only [if_pos rfl] at hsum
        calc (({ c with
              tickets_sold := c.tickets_sold + o.quantity })
                : Concert).tickets_sold
            = c.tickets_sold + o.quantity := rfl
          _ = sumPaidQuantities db.orders o.concertId + o.quantity := by
              rw [hinv]
          _ = sumPaidQuantities (markFirstOrderPaid db.orders sid)
                o.concertId := hsum.symm

/-- Witness for `C3_count_reconciliation_amended`: saving a paid
registration into an empty ledger leaves the cached count at the recomputed
value 1. -/
theorem C3_count_reconciliation_amended_witness :
    (Workshop.current_registrations ⟨1, 40, 10, 1, 0⟩ : Nat) =
      countPaidAttended
        (saveRegistration ⟨[], [⟨1, 40, 10, 0, 0⟩], [], [], [], []⟩
          ⟨1, 1, 5, RegStatus.paid, 40, "pi_1", "cs", true⟩).registrations
        1 :=
  C3_count_reconciliation_amended.1
    ⟨[], [⟨1, 40, 10, 0, 0⟩], [], [], [], []⟩
    ⟨1, 1, 5, RegStatus.paid, 40, "pi_1", "cs", true⟩
    ⟨1, 40, 10, 1, 0⟩ rfl

/-! ## C4: the webhook handlers never create ledger rows -/

/-- A registration save targeting an existing row keeps the ledger length. -/
theorem workshopWebhook_reg_length (db : DB) (md : WorkshopMeta) :
    (workshopWebhook db md).registrations.length =
      db.registrations.length := by
  obtain ⟨wid?, uid?, sid⟩ := md
  cases wid? with
  | none => rfl
  | some wid =>
      cases uid? with
      | none => rfl
      | some uid =>
          simp only [workshopWebhook]
          split
          · next w hfw hu =>
              split
              · next r hr =>
                  split
                  · have hmem : r ∈ db.registrations :=
                      List.mem_of_find?_eq_some hr
                    have hany : db.registrations.any (·.id == r.id) = true :=
                      List.any_eq_true.mpr ⟨r, hmem, by simp⟩
                    rw [saveRegistration_registrations db
                      { r with
                        status := RegStatus.paid
                        amount_paid := w.price
                        stripe_checkout_session_id := sid }
                      hany]
                    simp
                  · rfl
              · rfl
          · rfl

/-- The concert webhook branch keeps the order-ledger length. -/
theorem concertWebhook_order_length (db : DB) (md : ConcertMeta) :
    (concertWebhook db md).orders.length = db.orders.length := by
  simp only [concertWebhook]
  split
  · rfl
  · split
    · rfl
    · simp [markFirst_length]

/-- The concert webhook branch never touches registrations. -/
theorem concertWebhook_registrations (db : DB) (md : ConcertMeta) :
    (concertWebhook db md).registrations = db.registrations := by
  simp only [concertWebhook]
  split
  · rfl
  · split
    · rfl
    · rfl

/-- The workshop webhook branch never touches orders. -/
theorem workshopWebhook_orders (db : DB) (md : WorkshopMeta) :
    (workshopWebhook db md).orders = db.orders := by
  obtain ⟨wid?, uid?, sid⟩ := md
  cases wid? with
  | none => rfl
  | some wid =>
      cases uid? with
      | none => rfl
      | some uid =>
          simp only [workshopWebhook]
          split
          · split
            · split
              · rfl
              · rfl
            · rfl
          · rfl

/-- The workshop webhook branch is a no-op when the metadata pair matches no
pending registration. -/
theorem workshopWebhook_frame_pair (db : DB) (md : WorkshopMeta)
    (h : ∀ r ∈ db.registrations, md.workshop_id = Option.some r.workshopId →
      md.user_id = Option.some r.userId → r.status ≠ RegStatus.pending) :
    workshopWebhook db md = db := by
  obtain ⟨wid?, uid?, sid⟩ := md
  cases wid? with
  | none => rfl
  | some wid =>
      cases uid? with
      | none => rfl
      | some uid =>
          apply workshopWebhook_noop
          intro r hr
          have hmem : r ∈ db.registrations := List.mem_of_find?_eq_some hr
          have hpred := List.find?_some hr
          simp only [Bool.and_eq_true, beq_iff_eq] at hpred
          exact h r hmem (by rw [hpred.1]) (by rw [hpred.2])

/-- C4: neither webhook branch ever creates a ledger row — when no pending
row matches the event (by session id for concerts, by the metadata pair for
workshops) the handler changes nothing; ledger lengths are always
preserved; a verified event is answered 200 regardless; the checkout views
stage order data only in the browser session, never writing a pending
ledger row (concert checkout writes nothing, workshop registration writes
at most a user account); hence on a database without pending rows — the
only kind the checkout flow produces — the webhook performs no mutation at
all. -/
theorem C4_webhook_never_creates :
    (∀ db (md : ConcertMeta),
      (∀ o ∈ db.orders, o.stripe_checkout_session_id = md.session_id →
        o.status ≠ OrderStatus.pending) →
      concertWebhook db md = db) ∧
    (∀ db (md : WorkshopMeta),
      (∀ r ∈ db.registrations, md.workshop_id = Option.some r.workshopId →
        md.user_id = Option.some r.userId → r.status ≠ RegStatus.pending) →
      workshopWebhook db md = db) ∧
    (∀ db ev, (webhookProcess db ev).orders.length = db.orders.length ∧
      (webhookProcess db ev).registrations.length =
        db.registrations.length) ∧
    (∀ db req ev, verify_webhook_ok req = true →
      (stripe_webhook db req ev).2 = 200) ∧
    (∀ db br c fd stripeOk nsid,
      (order_tickets db br c fd stripeOk nsid).1 = db) ∧
    (∀ db br w auth fd nuid stripeOk nsid,
      (register db br w auth fd nuid stripeOk nsid).1.registrations =
        db.registrations ∧
      (register db br w auth fd nuid stripeOk nsid).1.orders = db.orders) ∧
    (∀ db ev, (∀ r ∈ db.registrations, r.status ≠ RegStatus.pending) →
      (∀ o ∈ db.orders, o.status ≠ OrderStatus.pending) →
      webhookProcess db ev = db) := by
  refine ⟨fun db md h => concertWebhook_noop db md h,
    fun db md h => workshopWebhook_frame_pair db md h, ?_, ?_, ?_, ?_, ?_⟩
  · intro db ev
    cases ev with
    | completedWorkshop md =>
        exact ⟨congrArg List.length (workshopWebhook_orders db md),
          workshopWebhook_reg_length db md⟩
    | completedConcert md =>
        exact ⟨concertWebhook_order_length db md,
          congrArg List.length (concertWebhook_registrations db md)⟩
    | completedOther => exact ⟨rfl, rfl⟩
    | otherType => exact ⟨rfl, rfl⟩
  · intro db req ev h
    simp [stripe_webhook, h]
  · intro db br c fd stripeOk nsid
    simp only [order_tickets]
    split
    · rfl
    · rfl
  · intro db br w auth fd nuid stripeOk nsid
    simp only [register, form_get_or_create_user]
    cases auth with
    | none =>
        split
        · exact ⟨rfl, rfl⟩
        · split
          · exact ⟨rfl, rfl⟩
          · exact ⟨rfl, rfl⟩
    | some uid =>
        split
        · exact ⟨rfl, rfl⟩
        · split
          · exact ⟨rfl, rfl⟩
          · exact ⟨rfl, rfl⟩
  · intro db ev hreg hord
    cases ev with
    | completedWorkshop md =>
        exact workshopWebhook_frame_pair db md
          fun r hr _ _ => hreg r hr
    | completedConcert md =>
        exact concertWebhook_noop db md fun o ho _ => hord o ho
    | completedOther => rfl
    | otherType => rfl

/-- Witness for `C4_webhook_never_creates`: on a ledger whose only rows are
already paid, a verified completed event for an unknown session mutates
nothing and the endpoint answers 200. -/
theorem C4_webhook_never_creates_witness :
    concertWebhook
        ⟨[], [], [],
          [⟨1, TicketSource.internal, 10, 8, Option.some 100, 1⟩],
          [⟨1, 1, "e", "n", "", "full", 1, 10, 10, OrderStatus.paid,
            "cs_9", true, true⟩], []⟩
        ⟨Option.some 1, "cs_unknown"⟩ =
      ⟨[], [], [],
        [⟨1, TicketSource.internal, 10, 8, Option.some 100, 1⟩],
        [⟨1, 1, "e", "n", "", "full", 1, 10, 10, OrderStatus.paid,
          "cs_9", true, true⟩], []⟩ ∧
    (stripe_webhook
        ⟨[], [], [], [], [], []⟩ ⟨true, true, true⟩
        (WebhookEvent.completedConcert ⟨Option.some 1, "cs_unknown"⟩)).2 =
      200 := by
  constructor
  · exact C4_webhook_never_creates.1
      ⟨[], [], [],
        [⟨1, TicketSource.internal, 10, 8, Option.some 100, 1⟩],
        [⟨1, 1, "e", "n", "", "full", 1, 10, 10, OrderStatus.paid,
          "cs_9", true, true⟩], []⟩
      ⟨Option.some 1, "cs_unknown"⟩ (by decide)
  · exact C4_webhook_never_creates.2.2.2.1
      ⟨[], [], [], [], [], []⟩ ⟨true, true, true⟩
      (WebhookEvent.completedConcert ⟨Option.some 1, "cs_unknown"⟩)
      (by decide)

/-! ## C6/C7: importer helper lemmas -/

/-- Whether a validation outcome is an error. -/
def isErr (x : Except String ValidatedRow) : Bool :=
  match x with
  | Except.error _ => true
  | Except.ok _ => false

/-- Every invalid row contributes its numbered message to the collected
error list. -/
theorem validateAllFrom_error_mem :
    ∀ (rows : List Row) (start i : Nat) (r : Row) (e : String),
      rows.get? i = Option.some r → validate_row r = Except.error e →
      ("Row " ++ toString (start + i) ++ ": " ++ e) ∈
        (validateAllFrom rows start).2 := by
  intro rows
  induction rows with
  | nil => intro start i r e h; simp at h
  | cons a t ih =>
      intro start i r e hget hval
      cases i with
      | zero =>
          simp only [List.get?] at hget
          injection hget with hget
          subst hget
          simp only [validateAllFrom, hval, Nat.add_zero]
          exact List.mem_cons_self _ _
      | succ j =>
          simp only [List.get?] at hget
          have hmem := ih (start + 1) j r e hget hval
          have harith : start + 1 + j = start + (j + 1) := by omega
          rw [harith] at hmem
          cases hv : validate_row a with
          | ok v => simpa [validateAllFrom, hv] using hmem
          | error e2 =>
              simp only [validateAllFrom, hv]
              exact List.mem_cons_of_mem _ hmem

/-- The error list is nonempty as soon as one row is invalid. -/
theorem validateAllFrom_errors_ne_nil :
    ∀ (rows : List Row) (start : Nat),
      (∃ r ∈ rows, isErr (validate_row r) = true) →
      (validateAllFrom rows start).2 ≠ [] := by
  intro rows
  induction rows with
  | nil => rintro start ⟨r, hr, _⟩; simp at hr
  | cons a t ih =>
      rintro start ⟨r, hr, herr⟩
      cases hv : validate_row a with
      | error e => simp [validateAllFrom, hv]
      | ok v =>
          simp only [validateAllFrom, hv]
          rcases List.mem_cons.mp hr with h | h
          · subst h
            rw [hv] at herr
            exact absurd herr (by simp [isErr])
          · exact ih (start + 1) ⟨r, h, herr⟩

/-- A member of a list of naturals is bounded by the folded maximum. -/
theorem le_foldr_max (l : List Nat) (x : Nat) (h : x ∈ l) :
    x ≤ l.foldr max 0 := by
  induction l with
  | nil => simp at h
  | cons a t ih =>
      rcases List.mem_cons.mp h with h | h
      · subst h
        exact le_max_left _ _
      · exact le_trans (ih h) (le_max_right _ _)

/-- Primary keys present in the ledger are bounded by the running maximum,
so the importer's fresh registration id is never taken. -/
theorem freshRegId_not_taken (db : DB) :
    db.registrations.any (·.id == freshRegId db) = false := by
  rw [Bool.eq_false_iff]
  intro hany
  obtain ⟨r, hmem, hid⟩ := List.any_eq_true.mp hany
  have hle : r.id ≤ (db.registrations.map (·.id)).foldr max 0 :=
    le_foldr_max _ _ (List.mem_map_of_mem _ hmem)
  rw [beq_iff_eq] at hid
  rw [freshRegId] at hid
  omega

/-- The user-creation step of the import loop touches only the user table. -/
theorem importGetOrCreateUser_frame (db : DB) (v : ValidatedRow) :
    (importGetOrCreateUser db v).1.registrations = db.registrations ∧
    (importGetOrCreateUser db v).1.transactions = db.transactions ∧
    (importGetOrCreateUser db v).1.workshops = db.workshops := by
  simp only [importGetOrCreateUser]
  split
  · exact ⟨rfl, rfl, rfl⟩
  · exact ⟨rfl, rfl, rfl⟩

/-- The id and legacy-bookings projection of a pk lookup survives an update
that touches neither. -/
theorem legacy_find_updateWorkshop (l : List Workshop) (wid wid2 : Nat)
    (g : Workshop → Workshop) (hg : ∀ w, (g w).id = w.id)
    (hl : ∀ w, (g w).legacy_bookings = w.legacy_bookings) :
    ((updateWorkshop l wid g).find? (·.id == wid2)).map (·.legacy_bookings) =
      (l.find? (·.id == wid2)).map (·.legacy_bookings) := by
  induction l with
  | nil => rfl
  | cons a t ih =>
      rw [updateWorkshop, List.map_cons]
      by_cases hw : (a.id == wid) = true
      · rw [if_pos hw]
        cases h2 : (a.id == wid2) with
        | true =>
            have hga : ((g a).id == wid2) = true := by rw [hg a]; exact h2
            simp only [List.find?_cons, hga, h2, Option.map, hl a]
        | false =>
            have hga : ((g a).id == wid2) = false := by rw [hg a]; exact h2
            simp only [List.find?_cons, hga, h2]
            exact ih
      · rw [if_neg hw]
        cases h2 : (a.id == wid2) with
        | true => simp only [List.find?_cons, h2]
        | false =>
            simp only [List.find?_cons, h2]
            exact ih

/-- The legacy-bookings projection of a workshop lookup. -/
def legacyOf (db : DB) (wid : Nat) : Option Nat :=
  (db.workshops.find? (·.id == wid)).map (·.legacy_bookings)

/-- Saving a registration never changes any workshop's legacy counter. -/
theorem legacyOf_saveRegistration (db : DB) (r : WorkshopRegistration)
    (wid : Nat) : legacyOf (saveRegistration db r) wid = legacyOf db wid := by
  simp only [legacyOf, saveRegistration]
  exact legacy_find_updateWorkshop db.workshops r.workshopId wid _
    (fun w => rfl) (fun w => rfl)

/-- Saving a registration never changes any workshop's legacy counter
(workshops-list form). -/
theorem legacy_workshops_save (db : DB) (r : WorkshopRegistration)
    (wid2 : Nat) :
    ((saveRegistration db r).workshops.find? (·.id == wid2)).map
        (·.legacy_bookings) =
      (db.workshops.find? (·.id == wid2)).map (·.legacy_bookings) := by
  simp only [saveRegistration]
  exact legacy_find_updateWorkshop db.workshops r.workshopId wid2 _
    (fun w => rfl) (fun w => rfl)

/-- The import loop's `created_registrations` and `created_transactions`
counters both equal the number of non-skipped rows. -/
theorem importLoop_counts :
    ∀ (vs : List ValidatedRow) (db : DB) (wid : Nat) (skip : List String),
      (importLoop db wid skip vs).2.2.1 =
        (vs.filter fun v => !(skip.contains v.email)).length ∧
      (importLoop db wid skip vs).2.2.2 =
        (vs.filter fun v => !(skip.contains v.email)).length := by
  intro vs
  induction vs with
  | nil => intro db wid skip; exact ⟨rfl, rfl⟩
  | cons v rest ih =>
      intro db wid skip
      cases hskip : skip.contains v.email with
      | true =>
          rw [importLoop, if_pos hskip, List.filter_cons,
            if_neg (by rw [hskip]; decide)]
          exact ih db wid skip
      | false =>
          rw [importLoop, if_neg (by rw [hskip]; decide), List.filter_cons,
            if_pos (by rw [hskip]; decide)]
          dsimp only
          constructor
          · rw [(ih _ wid skip).1]
            simp
          · rw [(ih _ wid skip).2]
            simp

/-- The import loop grows the registration ledger by exactly one row per
non-skipped validated row. -/
theorem importLoop_regs_length :
    ∀ (vs : List ValidatedRow) (db : DB) (wid : Nat) (skip : List String),
      (importLoop db wid skip vs).1.registrations.length =
        db.registrations.length +
          (vs.filter fun v => !(skip.contains v.email)).length := by
  intro vs
  induction vs with
  | nil => intro db wid skip; simp [importLoop]
  | cons v rest ih =>
      intro db wid skip
      cases hskip : skip.contains v.email with
      | true =>
          rw [importLoop, if_pos hskip, List.filter_cons,
            if_neg (by rw [hskip]; decide)]
          exact ih db wid skip
      | false =>
          rw [importLoop, if_neg (by rw [hskip]; decide), List.filter_cons,
            if_pos (by rw [hskip]; decide)]
          dsimp only
          rw [ih]
          have hfresh : (importGetOrCreateUser db v).1.registrations.any
              (·.id == (importRegistration
                (freshRegId (importGetOrCreateUser db v).1)
                wid (importGetOrCreateUser db v).2.1 v).id) = false :=
            freshRegId_not_taken (importGetOrCreateUser db v).1
          have hreglen : (saveRegistration (importGetOrCreateUser db v).1
              (importRegistration (freshRegId (importGetOrCreateUser db v).1)
                wid (importGetOrCreateUser db v).2.1 v)).registrations.length
              = (importGetOrCreateUser db v).1.registrations.length + 1 := by
            simp only [saveRegistration]
            rw [if_neg (by rw [hfresh]; decide)]
            simp
          rw [hreglen, (importGetOrCreateUser_frame db v).1]
          simp
          omega

/-- The import loop creates exactly one fee record per non-skipped row. -/
theorem importLoop_txs_length :
    ∀ (vs : List ValidatedRow) (db : DB) (wid : Nat) (skip : List String),
      (importLoop db wid skip vs).1.transactions.length =
        db.transactions.length +
          (vs.filter fun v => !(skip.contains v.email)).length := by
  intro vs
  induction vs with
  | nil => intro db wid skip; simp [importLoop]
  | cons v rest ih =>
      intro db wid skip
      cases hskip : skip.contains v.email with
      | true =>
          rw [importLoop, if_pos hskip, List.filter_cons,
            if_neg (by rw [hskip]; decide)]
          exact ih db wid skip
      | false =>
          rw [importLoop, if_neg (by rw [hskip]; decide), List.filter_cons,
            if_pos (by rw [hskip]; decide)]
          dsimp only
          rw [ih]
          have htx : (saveRegistration (importGetOrCreateUser db v).1
              (importRegistration (freshRegId (importGetOrCreateUser db v).1)
                wid (importGetOrCreateUser db v).2.1 v)).transactions =
              db.transactions := (importGetOrCreateUser_frame db v).2.1
          rw [List.length_append, htx]
          simp
          omega

/-- The import loop never changes any workshop's legacy counter. -/
theorem importLoop_legacy :
    ∀ (vs : List ValidatedRow) (db : DB) (wid : Nat) (skip : List String)
      (wid2 : Nat),
      legacyOf (importLoop db wid skip vs).1 wid2 = legacyOf db wid2 := by
  intro vs
  induction vs with
  | nil => intro db wid skip wid2; rfl
  | cons v rest ih =>
      intro db wid skip wid2
      cases hskip : skip.contains v.email with
      | true =>
          rw [importLoop, if_pos hskip]
          exact ih db wid skip wid2
      | false =>
          rw [importLoop, if_neg (by rw [hskip]; decide)]
          dsimp only
          rw [ih]
          show ((saveRegistration (importGetOrCreateUser db v).1
              (importRegistration (freshRegId (importGetOrCreateUser db v).1)
                wid (importGetOrCreateUser db v).2.1
                v)).workshops.find? (·.id == wid2)).map (·.legacy_bookings) =
            legacyOf db wid2
          rw [legacy_workshops_save, (importGetOrCreateUser_frame db v).2.2]
          rfl

/-! ## C6: the importer aborts whole batches with a full error report -/

/-- C6: with a valid target workshop and a nonempty file, any malformed
row aborts the entire batch before any write — the database is returned
unchanged and the outcome carries the collected error list, which contains
one numbered message for every invalid row (not just the first); and when
every row is valid but two rows share a buyer email, the batch likewise
aborts with no write. -/
theorem C6_import_aborts_on_invalid :
    (∀ (db : DB) (wid : Nat) (rows : List Row),
      db.workshops.any (·.id == wid) = true → rows ≠ [] →
      (∃ r ∈ rows, isErr (validate_row r) = true) →
      (import_legacy_bookings db wid rows).1 = db ∧
      (import_legacy_bookings db wid rows).2 =
        ImportOutcome.validationFailed (validateAll rows).2 ∧
      (∀ i r e, rows.get? i = Option.some r →
        validate_row r = Except.error e →
        ("Row " ++ toString (1 + i) ++ ": " ++ e) ∈ (validateAll rows).2)) ∧
    (∀ (db : DB) (wid : Nat) (rows : List Row),
      db.workshops.any (·.id == wid) = true → rows ≠ [] →
      (validateAll rows).2 = [] →
      (∃ e ∈ (validateAll rows).1.map (·.email),
        1 < ((validateAll rows).1.map (·.email)).count e) →
      (import_legacy_bookings db wid rows).1 = db ∧
      ∃ ds, ds ≠ [] ∧ (import_legacy_bookings db wid rows).2 =
        ImportOutcome.duplicateEmails ds) := by
  constructor
  · intro db wid rows hanyW hne hex
    obtain ⟨w, hw⟩ : ∃ w, db.workshops.find? (·.id == wid) =
        Option.some w := by
      cases hfw : db.workshops.find? (·.id == wid) with
      | some w => exact ⟨w, rfl⟩
      | none =>
          rw [List.find?_eq_none] at hfw
          obtain ⟨x, hx, hpx⟩ := List.any_eq_true.mp hanyW
          exact absurd hpx (hfw x hx)
    have herr := validateAllFrom_errors_ne_nil rows 1 hex
    have hempty : rows.isEmpty = false := by
      cases rows with
      | nil => exact absurd rfl hne
      | cons a t => rfl
    have herrne : ¬((validateAll rows).2.isEmpty = true) := by
      intro hcon
      exact herr (List.isEmpty_iff.mp hcon)
    refine ⟨?_, ?_, ?_⟩
    · simp only [import_legacy_bookings, hw, hempty]
      rw [if_neg (by decide), if_pos herrne]
    · simp only [import_legacy_bookings, hw, hempty]
      rw [if_neg (by decide), if_pos herrne]
    · intro i r e hget hval
      exact validateAllFrom_error_mem rows 1 i r e hget hval
  · intro db wid rows hanyW hne heq hdup
    obtain ⟨w, hw⟩ : ∃ w, db.workshops.find? (·.id == wid) =
        Option.some w := by
      cases hfw : db.workshops.find? (·.id == wid) with
      | some w => exact ⟨w, rfl⟩
      | none =>
          rw [List.find?_eq_none] at hfw
          obtain ⟨x, hx, hpx⟩ := List.any_eq_true.mp hanyW
          exact absurd hpx (hfw x hx)
    have hempty : rows.isEmpty = false := by
      cases rows with
      | nil => exact absurd rfl hne
      | cons a t => rfl
    obtain ⟨e, hemem, hecount⟩ := hdup
    have hmemf : e ∈ ((validateAll rows).1.map (·.email)).filter
        (fun x => ((validateAll rows).1.map (·.email)).count x > 1) :=
      List.mem_filter.mpr ⟨hemem, by simp [hecount]⟩
    have hmemd : e ∈ (((validateAll rows).1.map (·.email)).filter
        (fun x => ((validateAll rows).1.map (·.email)).count x > 1)).dedup :=
      List.mem_dedup.mpr hmemf
    have hdne : (((validateAll rows).1.map (·.email)).filter
        (fun x => ((validateAll rows).1.map (·.email)).count x > 1)).dedup ≠
        [] := List.ne_nil_of_mem hmemd
    have hdnotempty : ¬(((((validateAll rows).1.map (·.email)).filter
        (fun x => ((validateAll rows).1.map (·.email)).count x >
          1)).dedup).isEmpty = true) := by
      intro hcon
      exact hdne (List.isEmpty_iff.mp hcon)
    constructor
    · simp only [import_legacy_bookings, hw, hempty, heq]
      rw [if_neg (by decide), if_neg (by simp), if_pos hdnotempty]
    · refine ⟨_, hdne, ?_⟩
      simp only [import_legacy_bookings, hw, hempty, heq]
      rw [if_neg (by decide), if_neg (by simp), if_pos hdnotempty]

/-- Witness for `C6_import_aborts_on_invalid`: a one-row file whose amount
is `abc` leaves the database untouched and the error list reports row 1. -/
theorem C6_import_aborts_on_invalid_witness :
    (import_legacy_bookings ⟨[], [⟨1, 40, 10, 0, 0⟩], [], [], [], []⟩ 1
        [[("email", "a@x.com"), ("name", "Ann Alpha"), ("amount", "abc"),
          ("fee", "1.35"), ("payment_intent_id", "pi_1"),
          ("date", "2024-01-15")]]).1 =
      ⟨[], [⟨1, 40, 10, 0, 0⟩], [], [], [], []⟩ ∧
    ("Row 1: Invalid amount: abc") ∈
      (validateAll
        [[("email", "a@x.com"), ("name", "Ann Alpha"), ("amount", "abc"),
          ("fee", "1.35"), ("payment_intent_id", "pi_1"),
          ("date", "2024-01-15")]]).2 := by
  constructor
  · exact (C6_import_aborts_on_invalid.1
      ⟨[], [⟨1, 40, 10, 0, 0⟩], [], [], [], []⟩ 1
      [[("email", "a@x.com"), ("name", "Ann Alpha"), ("amount", "abc"),
        ("fee", "1.35"), ("payment_intent_id", "pi_1"),
        ("date", "2024-01-15")]]
      (by decide) (by decide) ⟨_, List.mem_cons_self _ _, by decide⟩).1
  · exact (C6_import_aborts_on_invalid.1
      ⟨[], [⟨1, 40, 10, 0, 0⟩], [], [], [], []⟩ 1
      [[("email", "a@x.com"), ("name", "Ann Alpha"), ("amount", "abc"),
        ("fee", "1.35"), ("payment_intent_id", "pi_1"),
        ("date", "2024-01-15")]]
      (by decide) (by decide)
      ⟨_, List.mem_cons_self _ _, by decide⟩).2.2 0 _ "Invalid amount: abc"
      rfl rfl

/-! ## C7: the importer's skip set and legacy-counter decrement -/

/-- Length of the complement filter. -/
theorem length_filter_not {α : Type} (l : List α) (p : α → Bool) :
    (l.filter fun a => !(p a)).length = l.length - (l.filter p).length := by
  induction l with
  | nil => rfl
  | cons a t ih =>
      have hle := List.length_filter_le p t
      cases ha : p a with
      | true =>
          rw [List.filter_cons, if_neg (by rw [ha]; decide),
            List.filter_cons, if_pos (by rw [ha])]
          simp only [List.length_cons]
          omega
      | false =>
          rw [List.filter_cons, if_pos (by rw [ha]; decide),
            List.filter_cons, if_neg (by rw [ha]; decide)]
          simp only [List.length_cons]
          omega

/-- For a row of the batch, membership in the computed skip list coincides
with the already-registered test (which depends only on the email). -/
theorem contains_existingEmails (db : DB) (wid : Nat)
    (vs : List ValidatedRow) (v : ValidatedRow) (hv : v ∈ vs) :
    (existingEmails db wid vs).contains v.email =
      isExistingRegistered db wid v.email := by
  cases hreg : isExistingRegistered db wid v.email with
  | true =>
      have hmemf : v ∈ vs.filter
          (fun x => isExistingRegistered db wid x.email) :=
        List.mem_filter.mpr ⟨hv, hreg⟩
      have hmemm : v.email ∈ existingEmails db wid vs :=
        List.mem_map_of_mem _ hmemf
      exact List.elem_eq_true_of_mem hmemm
  | false =>
      rw [Bool.eq_false_iff]
      intro hcon
      have hmem : v.email ∈ existingEmails db wid vs := by
        rw [List.contains_iff_exists_mem_beq] at hcon
        obtain ⟨a, ha, hbeq⟩ := hcon
        rw [beq_iff_eq] at hbeq
        rw [hbeq]
        exact ha
      obtain ⟨v2, hv2f, hemail⟩ := List.mem_map.mp hmem
      have hp2 : isExistingRegistered db wid v2.email = true :=
        (List.mem_filter.mp hv2f).2
      rw [hemail] at hp2
      rw [hp2] at hreg
      exact Bool.noConfusion hreg

/-- The loop's skip filter equals the already-registered filter. -/
theorem filter_skip_eq (db : DB) (wid : Nat) (vs : List ValidatedRow) :
    (vs.filter fun v => !((existingEmails db wid vs).contains v.email)) =
      vs.filter fun v => !(isExistingRegistered db wid v.email) := by
  apply List.filter_congr
  intro v hv
  rw [contains_existingEmails db wid vs v hv]

/-- C7 counterexample: a workshop with `legacy_bookings = 1` and a valid
two-row file imports both rows but leaves the counter at 1 — the code
skips the decrement entirely when it would overshoot, instead of
decrementing to the floor of zero as the claim states. -/
theorem C7_legacy_counterexample :
    (import_legacy_bookings ⟨[], [⟨1, 40, 10, 0, 1⟩], [], [], [], []⟩ 1
        [[("email", "a@x.com"), ("name", "Ann Alpha"), ("amount", "45.00"),
          ("fee", "1.35"), ("payment_intent_id", "pi_1"),
          ("date", "2024-01-15")],
         [("email", "b@x.com"), ("name", "Bob Beta"), ("amount", "45.00"),
          ("fee", "1.35"), ("payment_intent_id", "pi_2"),
          ("date", "2024-01-15")]]).2 = ImportOutcome.imported 2 2 2 ∧
    legacyOf
        (import_legacy_bookings ⟨[], [⟨1, 40, 10, 0, 1⟩], [], [], [], []⟩ 1
          [[("email", "a@x.com"), ("name", "Ann Alpha"), ("amount", "45.00"),
            ("fee", "1.35"), ("payment_intent_id", "pi_1"),
            ("date", "2024-01-15")],
           [("email", "b@x.com"), ("name", "Bob Beta"), ("amount", "45.00"),
            ("fee", "1.35"), ("payment_intent_id", "pi_2"),
            ("date", "2024-01-15")]]).1 1 = Option.some 1 := by
  exact ⟨by decide, by decide⟩

/-- C7 as amended: with a valid workshop, a nonempty all-valid file and no
duplicate emails, the importer skips exactly the rows whose buyer is
already registered; if nothing remains it makes no change at all, and
otherwise it creates one paid registration and one fee record per
remaining row and decrements `legacy_bookings` by that number only when
the counter is at least that number, leaving it unchanged otherwise (so it
never goes below zero, but it is not clamped to zero either). -/
theorem C7_import_amended :
    ∀ (db : DB) (wid : Nat) (rows : List Row) (w : Workshop),
      db.workshops.find? (·.id == wid) = Option.some w →
      rows ≠ [] →
      (validateAll rows).2 = [] →
      (∀ e ∈ (validateAll rows).1.map (·.email),
        ((validateAll rows).1.map (·.email)).count e ≤ 1) →
      (((validateAll rows).1.filter fun v =>
          !(isExistingRegistered db wid v.email)).length = 0 →
        import_legacy_bookings db wid rows =
          (db, ImportOutcome.nothingToImport)) ∧
      (∀ n, ((validateAll rows).1.filter fun v =>
          !(isExistingRegistered db wid v.email)).length = n → n ≠ 0 →
        ∃ cu,
          (import_legacy_bookings db wid rows).2 =
            ImportOutcome.imported cu n n ∧
          (import_legacy_bookings db wid rows).1.registrations.length =
            db.registrations.length + n ∧
          (import_legacy_bookings db wid rows).1.transactions.length =
            db.transactions.length + n ∧
          legacyOf (import_legacy_bookings db wid rows).1 wid =
            Option.some (if n ≤ w.legacy_bookings then
              w.legacy_bookings - n else w.legacy_bookings)) := by
  intro db wid rows w hw hne herrs hcount
  have hempty : rows.isEmpty = false := by
    cases rows with
    | nil => exact absurd rfl hne
    | cons a t => rfl
  have hdnil : ((validateAll rows).1.map (·.email)).filter
      (fun e => ((validateAll rows).1.map (·.email)).count e > 1) = [] := by
    rw [List.filter_eq_nil_iff]
    intro e he
    have := hcount e he
    simp only [gt_iff_lt, decide_eq_true_eq]
    omega
  have hlen : (validateAll rows).1.length -
      (existingEmails db wid (validateAll rows).1).length =
      ((validateAll rows).1.filter fun v =>
        !(isExistingRegistered db wid v.email)).length := by
    rw [length_filter_not]
    simp [existingEmails]
  constructor
  · intro hzero
    simp only [import_legacy_bookings, hw, hempty, herrs, hdnil]
    rw [if_neg (by decide), if_neg (by simp), if_neg (by simp),
      if_pos (by rw [hlen, hzero])]
  · intro n hn hnz
    refine ⟨(importLoop db wid
      (existingEmails db wid (validateAll rows).1) (validateAll rows).1).2.1,
      ?_, ?_, ?_, ?_⟩
    all_goals
      simp only [import_legacy_bookings, hw, hempty, herrs, hdnil]
      rw [if_neg (by decide), if_neg (by simp), if_neg (by simp),
        if_neg (by rw [hlen, hn]; exact hnz)]
    · have hc := importLoop_counts (validateAll rows).1 db wid
        (existingEmails db wid (validateAll rows).1)
      rw [show ((validateAll rows).1.filter fun v =>
          !((existingEmails db wid (validateAll rows).1).contains v.email))
          = (validateAll rows).1.filter fun v =>
            !(isExistingRegistered db wid v.email)
        from filter_skip_eq db wid (validateAll rows).1, hn] at hc
      split
      · simp only [hc.1, hc.2]
      · simp only [hc.1, hc.2]
    · have hc := importLoop_counts (validateAll rows).1 db wid
        (existingEmails db wid (validateAll rows).1)
      have hr := importLoop_regs_length (validateAll rows).1 db wid
        (existingEmails db wid (validateAll rows).1)
      rw [filter_skip_eq db wid (validateAll rows).1, hn] at hc hr
      split
      · simpa using hr
      · simpa using hr
    · have hc := importLoop_counts (validateAll rows).1 db wid
        (existingEmails db wid (validateAll rows).1)
      have ht := importLoop_txs_length (validateAll rows).1 db wid
        (existingEmails db wid (validateAll rows).1)
      rw [filter_skip_eq db wid (validateAll rows).1, hn] at hc ht
      split
      · simpa using ht
      · simpa using ht
    · have hc := importLoop_counts (validateAll rows).1 db wid
        (existingEmails db wid (validateAll rows).1)
      have hl := importLoop_legacy (validateAll rows).1 db wid
        (existingEmails db wid (validateAll rows).1) wid
      rw [filter_skip_eq db wid (validateAll rows).1, hn] at hc
      have hlw : legacyOf (importLoop db wid
          (existingEmails db wid (validateAll rows).1)
          (validateAll rows).1).1 wid = Option.some w.legacy_bookings := by
        rw [hl]
        simp only [legacyOf, hw, Option.map]
      split
      · next hguard =>
          rw [hc.1] at hguard
          obtain ⟨wx, hwx⟩ : ∃ wx, (importLoop db wid
              (existingEmails db wid (validateAll rows).1)
              (validateAll rows).1).1.workshops.find? (·.id == wid) =
              Option.some wx := by
            cases hfx : (importLoop db wid
                (existingEmails db wid (validateAll rows).1)
                (validateAll rows).1).1.workshops.find? (·.id == wid) with
            | some wx => exact ⟨wx, rfl⟩
            | none =>
                rw [legacyOf, hfx] at hlw
                exact Option.noConfusion hlw
          simp only [legacyOf, DB.workshops]
          rw [find?_updateWorkshop _ _ _ ?hg, hwx]
          case hg => intro wc; rfl
          simp only [Option.map]
          rw [hc.1, if_pos (by omega)]
      · next hguard =>
          rw [hc.1] at hguard
          have hif : (if n ≤ w.legacy_bookings then w.legacy_bookings - n
              else w.legacy_bookings) = w.legacy_bookings :=
            if_neg (by omega)
          rw [hif]
          exact hlw

/-- Witness for `C7_import_amended`: importing two fresh rows into a
workshop with five legacy bookings creates two registrations and fee
records and lowers the counter to three. -/
theorem C7_import_amended_witness :
    (import_legacy_bookings ⟨[], [⟨1, 40, 10, 0, 5⟩], [], [], [], []⟩ 1
        [[("email", "a@x.com"), ("name", "Ann Alpha"), ("amount", "45.00"),
          ("fee", "1.35"), ("payment_intent_id", "pi_1"),
          ("date", "2024-01-15")],
         [("email", "b@x.com"), ("name", "Bob Beta"), ("amount", "45.00"),
          ("fee", "1.35"), ("payment_intent_id", "pi_2"),
          ("date", "2024-01-15")]]).2 = ImportOutcome.imported 2 2 2 ∧
    legacyOf
        (import_legacy_bookings ⟨[], [⟨1, 40, 10, 0, 5⟩], [], [], [], []⟩ 1
          [[("email", "a@x.com"), ("name", "Ann Alpha"), ("amount", "45.00"),
            ("fee", "1.35"), ("payment_intent_id", "pi_1"),
            ("date", "2024-01-15")],
           [("email", "b@x.com"), ("name", "Bob Beta"), ("amount", "45.00"),
            ("fee", "1.35"), ("payment_intent_id", "pi_2"),
            ("date", "2024-01-15")]]).1 1 = Option.some 3 := by
  obtain ⟨cu, h1, h2, h3, h4⟩ :=
    (C7_import_amended ⟨[], [⟨1, 40, 10, 0, 5⟩], [], [], [], []⟩ 1
      [[("email", "a@x.com"), ("name", "Ann Alpha"), ("amount", "45.00"),
        ("fee", "1.35"), ("payment_intent_id", "pi_1"),
        ("date", "2024-01-15")],
       [("email", "b@x.com"), ("name", "Bob Beta"), ("amount", "45.00"),
        ("fee", "1.35"), ("payment_intent_id", "pi_2"),
        ("date", "2024-01-15")]]
      ⟨1, 40, 10, 0, 5⟩ rfl (by decide) (by decide) (by decide)).2
      2 (by decide) (by decide)
  constructor
  · decide
  · exact h4

end Polyphonica
